import Mathlib

/-!
Verification development for the smart-home DTLS client
(`extension/plugins/philipshue-desktopsync/dtlsclient.js`) and the AES block
cipher it depends on (`aes-gcm.js`, the unnamed source file).

Shallow embedding conventions:
* JS arrays of bytes are `List Nat`; a well-formed byte is `< 256`.
* JS bitwise operators coerce their operands with ToInt32.  Every value the
  client feeds to these operators is a non-negative number below `2 ^ 31`,
  where ToInt32 is the identity, except for the oversized literal masks
  `0xFF00000000` in `uintToArray`, whose ToInt32 image is `0` — we keep those
  masks in the model but reduce them `mod 2 ^ 32` exactly as ToInt32 does on
  a non-negative literal.
* JS `undefined` fields are `Option.none`; fallible operations return
  `Except`.
* The GCM / SHA-256 / HMAC collaborators (`gcm.js`, `hashing.js`) are not in
  the repository snapshot, so the session model keeps their effects abstract:
  an inbound encrypted record carries the outcome of the (spec-modelled)
  authentication check, per spec §4.2 "decryption fails closed".
-/

namespace Dtls

/-- JS `uintToArray(number, length)` (dtlsclient.js lines 109-137): big-endian
byte serialisation driven by threshold tests on `length`.  The two masks
written `0xFF00000000` in the source exceed 32 bits; JS `&` applies ToInt32 to
them, collapsing them to `0` (we write the coercion literally as
`0xFF00000000 % 2 ^ 32`), so bytes 5 and 6 of a 48-bit field are always `0`.
The remaining masks are within the int32 range where the Nat operations agree
with JS on the client's non-negative inputs. -/
def uintToArray (number length : Nat) : List Nat :=
  let a : List Nat := []
  let a := if length ≥ 48 then a ++ [(number &&& (0xFF00000000 % 2 ^ 32)) >>> 40] else a
  let a := if length ≥ 40 then a ++ [(number &&& (0xFF00000000 % 2 ^ 32)) >>> 32] else a
  let a := if length ≥ 32 then a ++ [(number &&& 0xFF000000) >>> 24] else a
  let a := if length ≥ 24 then a ++ [(number &&& 0xFF0000) >>> 16] else a
  let a := if length ≥ 16 then a ++ [(number &&& 0xFF00) >>> 8] else a
  if length ≥ 8 then a ++ [number &&& 0xFF] else a

/-- JS `arrayToUint(a)` (dtlsclient.js lines 146-155): big-endian fold
`number = (number << 8) | a[i]`.  Modelled with Nat shift/or, which agree
with the JS int32 operations while the running value stays below `2 ^ 31`
(true for every array the client converts). -/
def arrayToUint (a : List Nat) : Nat :=
  a.foldl (fun number x => (number <<< 8) ||| x) 0

/-- `protocolVersion.DTLS_1_2` (dtlsclient.js line 70), the fixed version the
client stores in `this._protocolVersion`. -/
def protocolVersionDTLS12 : Nat := 0xfefd

/-- JS `_createRecordHeader(packet, length)` (dtlsclient.js lines 473-492):
content type ‖ protocol version ‖ epoch ‖ sequence number ‖ body length,
serialised with `uintToArray` at widths 8 / 16 / 16 / 48 / 16 bits. -/
def createRecordHeader (cType epoch headerSeq bodyLen : Nat) : List Nat :=
  let message : List Nat := []
  let message := message ++ uintToArray cType 8
  let message := message ++ uintToArray protocolVersionDTLS12 16
  let message := message ++ uintToArray epoch 16
  let message := message ++ uintToArray headerSeq 48
  message ++ uintToArray bodyLen 16

/-- Value of a hex digit character, as JS `parseInt("0x" + c1 + c2)` reads
single digits; non-hex characters (where JS would produce NaN) map to 0 and
are excluded by hypothesis wherever faithfulness matters. -/
def hexVal (c : Char) : Nat :=
  if '0' ≤ c ∧ c ≤ '9' then c.toNat - '0'.toNat
  else if 'a' ≤ c ∧ c ≤ 'f' then c.toNat - 'a'.toNat + 10
  else if 'A' ≤ c ∧ c ≤ 'F' then c.toNat - 'A'.toNat + 10
  else 0

/-- Whether a character is a hex digit in the sense of `hexVal`. -/
def isHexDigitJs (c : Char) : Bool :=
  ('0' ≤ c && c ≤ '9') || ('a' ≤ c && c ≤ 'f') || ('A' ≤ c && c ≤ 'F')

/-- The PSK-bytes loop of `_createHandshakeFinishedBody` (dtlsclient.js lines
640-642): `for (i = 0; i < psk.length; i += 2) push(parseInt("0x" + psk[i] +
psk[i+1]))`.  Modelled for even-length strings (an odd length would make JS
read `undefined` and push NaN; all claims restrict to even lengths). -/
def pskPairs : List Char → List Nat
  | c1 :: c2 :: rest => (16 * hexVal c1 + hexVal c2) :: pskPairs rest
  | _ => []

/-- JS pre-master-secret construction inside `_createHandshakeFinishedBody`
(dtlsclient.js lines 633-642): 2-byte `psk.length / 2`, then a loop pushing
exactly 16 zero bytes (`for (i = 0; i < 16; i++) concat(uintToArray(0, 8))`),
then 2-byte `psk.length / 2` again, then the PSK hex pairs. -/
def preMasterSecret (psk : List Char) : List Nat :=
  let preMaster : List Nat := []
  let preMaster := preMaster ++ uintToArray (psk.length / 2) 16
  let preMaster := (List.range 16).foldl (fun a _ => a ++ uintToArray 0 8) preMaster
  let preMaster := preMaster ++ uintToArray (psk.length / 2) 16
  preMaster ++ pskPairs psk

/-- The shape claim C5 asserts for the pre-master secret: a 2-byte length,
an all-zero block "equal in length to the PSK byte string", a 2-byte PSK
length, then the PSK bytes. -/
def preMasterSecretClaimedShape (psk : List Char) : List Nat :=
  uintToArray (psk.length / 2) 16
    ++ List.replicate (psk.length / 2) 0
    ++ uintToArray (psk.length / 2) 16
    ++ pskPairs psk

/-- `contentType` table (dtlsclient.js lines 61-66). -/
def contentTypeChangeCipherSpec : Nat := 20

/-- Alert content type. -/
def contentTypeAlert : Nat := 21

/-- Handshake content type. -/
def contentTypeHandshake : Nat := 22

/-- Application-data content type. -/
def contentTypeApplicationData : Nat := 23

/-- `handshakeType` table (dtlsclient.js lines 47-59), the entries the client
dispatches on. -/
def handshakeClientHello : Nat := 1

/-- ServerHello handshake type. -/
def handshakeServerHello : Nat := 2

/-- HelloVerifyRequest handshake type. -/
def handshakeHelloVerifyRequest : Nat := 3

/-- ServerHelloDone handshake type. -/
def handshakeServerHelloDone : Nat := 14

/-- ClientKeyExchange handshake type. -/
def handshakeClientKeyExchange : Nat := 16

/-- Finished handshake type. -/
def handshakeFinished : Nat := 20

/-- The JS packet object built by `_sendHandshakeRequest` and mutated by the
HelloVerifyRequest handler.  `cookie = none` models the initial JS value `0`
(a number, replaced by a byte array on retry); `random = none` models the
initially absent `packet["random"]` property. -/
structure Packet where
  cType : Nat
  hType : Nat
  epoch : Nat
  headerSeq : Nat
  sessionId : Nat
  cookie : Option (List Nat)
  handshakeSeq : Nat
  random : Option (List Nat)
deriving DecidableEq

/-- Observable description of one outbound record, as assembled by
`_createPacket` / `sendEncrypted`.  `headerSeq = none` models a NaN sequence
number (JS `undefined++`).  `payload` is the application plaintext handed to
`sendEncrypted` (its GCM sealing is outside the repository snapshot). -/
structure OutRecord where
  cType : Nat
  hType : Option Nat
  epoch : Nat
  headerSeq : Option Nat
  handshakeSeq : Option Nat
  cookie : Option (List Nat)
  random : Option (List Nat)
  payload : Option (List Nat)
deriving DecidableEq

/-- One armed `GLib.timeout_add` retransmission timer (dtlsclient.js lines
326-337): its source id, the `attemptCounter` captured by the callback
closure, and the programmed delay in milliseconds. -/
structure TimerEntry where
  id : Nat
  attemptCounter : Nat
  delayMs : Nat
deriving DecidableEq

/-- Session state of `DTLSClient`: the fields of the JS object that the
handshake and data paths read or write, plus the externally observable
events (sent records, "connected" / "disconnected" emissions).
`readyToSend = none` models the field being still undefined. -/
structure Session where
  handshakeInProgress : Bool
  encrypted : Bool
  streamSeq : Option Nat
  clientRandom : Option (List Nat)
  helloClientPacket : Option Packet
  timers : List TimerEntry
  nextTimerId : Nat
  connectedEmits : Nat
  disconnectedEmits : Nat
  sent : List OutRecord
  readyToSend : Option Bool
deriving DecidableEq

/-- `_init` (dtlsclient.js lines 224-237): fresh session state. -/
def initSession : Session :=
  { handshakeInProgress := true
    encrypted := false
    streamSeq := none
    clientRandom := none
    helloClientPacket := none
    timers := []
    nextTimerId := 0
    connectedEmits := 0
    disconnectedEmits := 0
    sent := []
    readyToSend := none }

/-- The random-generation step of `_createHandshakeClientHelloBody`
(dtlsclient.js lines 513-525): when `packet["random"]` is undefined the body
draws 28 random bytes (supplied here as `rand`), stores them on the packet,
and sets `this._clientRandom = time ++ random` with `time = uintToArray 0 32`;
when the packet already carries a random (the cookie retry path) nothing is
drawn and `_clientRandom` is left alone. -/
def createClientHello (s : Session) (packet : Packet) (rand : List Nat) :
    Session × Packet :=
  match packet.random with
  | none =>
      let time := uintToArray 0 32
      let packet := { packet with random := some rand }
      ({ s with clientRandom := some (time ++ rand) }, packet)
  | some _ => (s, packet)

/-- Descriptor of the record `_createPacket` emits for a ClientHello packet. -/
def helloOut (p : Packet) : OutRecord :=
  { cType := p.cType, hType := some p.hType, epoch := p.epoch,
    headerSeq := some p.headerSeq, handshakeSeq := some p.handshakeSeq,
    cookie := p.cookie, random := p.random, payload := none }

/-- JS `_sendHandshakeRequest` (dtlsclient.js lines 362-378): build a fresh
ClientHello packet (epoch 0, header-seq 0, handshake-seq 0, no cookie, no
random yet), clear `_encrypted`, create and send the message — drawing the
28 random bytes `rand` because the fresh packet has no random — and store the
packet in `_helloClientPacket`. -/
def sendHandshakeRequest (s : Session) (rand : List Nat) : Session :=
  let packet : Packet :=
    { cType := contentTypeHandshake, hType := handshakeClientHello,
      epoch := 0, headerSeq := 0, sessionId := 0, cookie := none,
      handshakeSeq := 0, random := none }
  let s := { s with encrypted := false }
  let (s, packet) := createClientHello s packet rand
  let s := { s with sent := s.sent ++ [helloOut packet] }
  { s with helloClientPacket := some packet }

/-- JS `_initiateHandshake(attemptCounter)` (dtlsclient.js lines 318-338):
give up silently once `attemptCounter > 2`; otherwise send the handshake
request and arm a 200 ms retransmission timer whose callback captures the
current counter. -/
def initiateHandshake (s : Session) (attemptCounter : Nat) (rand : List Nat) :
    Session :=
  if attemptCounter > 2 then s
  else
    let s := sendHandshakeRequest s rand
    { s with
      timers := s.timers ++ [⟨s.nextTimerId, attemptCounter, 200⟩]
      nextTimerId := s.nextTimerId + 1 }

/-- Firing of one retransmission timer (the `GLib.timeout_add` callback,
dtlsclient.js lines 326-335): the timer removes itself from `this.timers`
and, if the handshake is still in progress, cancels the in-flight write and
calls `_initiateHandshake(++attemptCounter)`. -/
def timerFire (s : Session) (t : TimerEntry) (rand : List Nat) : Session :=
  let s := { s with timers := s.timers.filter (fun u => u.id ≠ t.id) }
  if s.handshakeInProgress then initiateHandshake s (t.attemptCounter + 1) rand
  else s

/-- The scenario of §8 "no response to ClientHello": every armed timer fires
(oldest first) and no inbound data ever arrives.  `rands` supplies one
28-byte block per ClientHello the client may draw; the fuel bounds the run. -/
def runSilent (rands : List (List Nat)) : Nat → Session → Session
  | 0, s => s
  | fuel + 1, s =>
    match s.timers with
    | [] => s
    | t :: _ => runSilent rands.tail fuel (timerFire s t (rands.headD []))

/-- Number of ClientHello records a session has sent. -/
def countClientHello (s : Session) : Nat :=
  (s.sent.filter
    (fun r => r.cType = contentTypeHandshake ∧ r.hType = some handshakeClientHello)).length

/-- A parsed inbound record, at the abstraction level of `_readPacket`:
its content type, the handshake type its (possibly decrypted) body carries,
the cookie for HelloVerifyRequest bodies, and — for records that arrive while
`_encrypted` is set and therefore pass through `gcm.authenticatedDecryption`
— whether the spec-modelled authentication check succeeds.
Modelled from the spec: `gcm.js` is not in the repository snapshot; per spec
§4.2 `open` fails closed, releasing zero plaintext bytes on tag mismatch. -/
structure InRecord where
  cType : Nat
  hType : Nat
  cookie : List Nat
  authOk : Bool
deriving DecidableEq

/-- The ClientKeyExchange → ChangeCipherSpec → Finished send chain triggered
by ServerHelloDone (`_sendKeyExchange`, `_sendHandshakeCipherSpec`,
`_sendHandshakeFinished`, dtlsclient.js lines 886-922).  The three sends are
chained through write-completion callbacks, which run in order on the
cooperative scheduler; `_sendHandshakeFinished` sets `_encrypted = true` and
`_handshakeInProgress = false` before sending the Finished record (epoch 1,
header-seq 0, handshake-seq 3).  Key derivation inside
`_createHandshakeFinishedBody` uses the missing hashing collaborator and is
not tracked: no claim depends on the derived key bytes. -/
def sendKeyExchangeChain (s : Session) : Session :=
  let keyExchange : OutRecord :=
    { cType := contentTypeHandshake, hType := some handshakeClientKeyExchange,
      epoch := 0, headerSeq := some 2, handshakeSeq := some 2,
      cookie := none, random := none, payload := none }
  let cipherSpec : OutRecord :=
    { cType := contentTypeChangeCipherSpec, hType := none,
      epoch := 0, headerSeq := some 3, handshakeSeq := some 3,
      cookie := none, random := none, payload := none }
  let finished : OutRecord :=
    { cType := contentTypeHandshake, hType := some handshakeFinished,
      epoch := 1, headerSeq := some 0, handshakeSeq := some 3,
      cookie := none, random := none, payload := none }
  let s := { s with sent := s.sent ++ [keyExchange] }
  let s := { s with sent := s.sent ++ [cipherSpec] }
  { s with
    encrypted := true
    handshakeInProgress := false
    sent := s.sent ++ [finished] }

/-- JS `closeBridge` (dtlsclient.js lines 345-355): clear all timers, cancel
the I/O tokens, close the socket and emit "disconnected". -/
def closeBridge (s : Session) : Session :=
  { s with timers := [], disconnectedEmits := s.disconnectedEmits + 1 }

/-- JS `_handleResponseHandshake(packet)` (dtlsclient.js lines 930-968),
dispatching on the handshake type:
ServerHello only logs; ServerHelloDone triggers the key-exchange chain;
HelloVerifyRequest rewrites the stored hello packet (header-seq 1,
handshake-seq 1, server cookie) and resends it — `_createPacket` does not
redraw the random because the stored packet already carries one — and
cancels no timer; Finished sets `_encrypted`, ends the handshake, resets
`streamSeq` to 0 and emits "connected".  The unreachable corner where
`_helloClientPacket` is still undefined (JS would throw) is left as a
no-op; every modelled trace sends a ClientHello first. -/
def handleResponseHandshake (s : Session) (hType : Nat) (cookie : List Nat) :
    Session :=
  if hType = handshakeServerHello then s
  else if hType = handshakeServerHelloDone then sendKeyExchangeChain s
  else if hType = handshakeHelloVerifyRequest then
    match s.helloClientPacket with
    | none => s
    | some pkt =>
        let pkt := { pkt with headerSeq := 1, handshakeSeq := 1, cookie := some cookie }
        let (s, pkt) := createClientHello s pkt []
        { s with
          helloClientPacket := some pkt
          sent := s.sent ++ [helloOut pkt] }
  else if hType = handshakeFinished then
    { s with
      encrypted := true
      handshakeInProgress := false
      streamSeq := some 0
      connectedEmits := s.connectedEmits + 1 }
  else s

/-- `_readPacket` + `_handleResponse` (dtlsclient.js lines 839-996) for one
inbound record.  A handshake record read while `_encrypted` is set goes
through `_decryptMsg`; on authentication failure the spec-modelled
`authenticatedDecryption` yields no plaintext, `popNextN` then reads JS
`undefined`s and `arrayToUint` folds them to `0` = HELLO_REQUEST, which falls
through the dispatch switch as a no-op.  Alerts close the bridge;
ChangeCipherSpec and unknown content types do nothing. -/
def handleRecord (s : Session) (r : InRecord) : Session :=
  if r.cType = contentTypeHandshake then
    let hType := if s.encrypted then (if r.authOk then r.hType else 0) else r.hType
    handleResponseHandshake s hType r.cookie
  else if r.cType = contentTypeAlert then closeBridge s
  else s

/-- Processing a sequence of inbound records in arrival order. -/
def runSession (s : Session) (msgs : List InRecord) : Session :=
  msgs.foldl handleRecord s

/-- JS `sendEncrypted(cleartext)` (dtlsclient.js lines 1143-1173): clear
`_readyToSend`, bail out with `false` while `_encrypted` is unset, otherwise
increment `streamSeq` (`undefined++` is NaN, kept as `none`), seal the
cleartext and emit an application-data record at epoch 1 whose header
sequence is the incremented `streamSeq`. -/
def sendEncrypted (s : Session) (cleartext : List Nat) : Bool × Session :=
  let s := { s with readyToSend := some false }
  if s.encrypted = false then (false, s)
  else
    let newSeq := s.streamSeq.map (· + 1)
    let s := { s with streamSeq := newSeq }
    let out : OutRecord :=
      { cType := contentTypeApplicationData, hType := none, epoch := 1,
        headerSeq := newSeq, handshakeSeq := none, cookie := none,
        random := none, payload := some cleartext }
    (true, { s with sent := s.sent ++ [out] })

/-- Inbound HelloVerifyRequest carrying a server cookie. -/
def hvrRecord (cookie : List Nat) : InRecord :=
  { cType := contentTypeHandshake, hType := handshakeHelloVerifyRequest,
    cookie := cookie, authOk := true }

/-- Inbound ServerHello. -/
def serverHelloRecord : InRecord :=
  { cType := contentTypeHandshake, hType := handshakeServerHello,
    cookie := [], authOk := true }

/-- Inbound ServerHelloDone. -/
def serverHelloDoneRecord : InRecord :=
  { cType := contentTypeHandshake, hType := handshakeServerHelloDone,
    cookie := [], authOk := true }

/-- Inbound server Finished whose spec-modelled authentication check has the
given outcome. -/
def serverFinishedRecord (authOk : Bool) : InRecord :=
  { cType := contentTypeHandshake, hType := handshakeFinished,
    cookie := [], authOk := authOk }

/-- The end-to-end handshake flow of spec §8: HelloVerifyRequest with a
cookie, ServerHello, ServerHelloDone, then the server Finished (arriving
after the client's own Finished, hence decrypted and verified). -/
def honestServerFlow : List InRecord :=
  [hvrRecord [0xAB, 0xCD], serverHelloRecord, serverHelloDoneRecord,
   serverFinishedRecord true]

/-- The session at the start of the §8 flow: connected socket, first
ClientHello sent, retransmission timer armed. -/
def sessionAfterHello : Session :=
  initiateHandshake initSession 0 (List.replicate 28 0)

end Dtls

namespace Aes

/-- The AES S-box table `SBox` (aes-gcm.js lines 35-52), 16 rows of 16. -/
def SBox : List (List Nat) :=
  [[0x63, 0x7c, 0x77, 0x7b, 0xf2, 0x6b, 0x6f, 0xc5, 0x30, 0x01, 0x67, 0x2b, 0xfe, 0xd7, 0xab, 0x76],
   [0xca, 0x82, 0xc9, 0x7d, 0xfa, 0x59, 0x47, 0xf0, 0xad, 0xd4, 0xa2, 0xaf, 0x9c, 0xa4, 0x72, 0xc0],
   [0xb7, 0xfd, 0x93, 0x26, 0x36, 0x3f, 0xf7, 0xcc, 0x34, 0xa5, 0xe5, 0xf1, 0x71, 0xd8, 0x31, 0x15],
   [0x04, 0xc7, 0x23, 0xc3, 0x18, 0x96, 0x05, 0x9a, 0x07, 0x12, 0x80, 0xe2, 0xeb, 0x27, 0xb2, 0x75],
   [0x09, 0x83, 0x2c, 0x1a, 0x1b, 0x6e, 0x5a, 0xa0, 0x52, 0x3b, 0xd6, 0xb3, 0x29, 0xe3, 0x2f, 0x84],
   [0x53, 0xd1, 0x00, 0xed, 0x20, 0xfc, 0xb1, 0x5b, 0x6a, 0xcb, 0xbe, 0x39, 0x4a, 0x4c, 0x58, 0xcf],
   [0xd0, 0xef, 0xaa, 0xfb, 0x43, 0x4d, 0x33, 0x85, 0x45, 0xf9, 0x02, 0x7f, 0x50, 0x3c, 0x9f, 0xa8],
   [0x51, 0xa3, 0x40, 0x8f, 0x92, 0x9d, 0x38, 0xf5, 0xbc, 0xb6, 0xda, 0x21, 0x10, 0xff, 0xf3, 0xd2],
   [0xcd, 0x0c, 0x13, 0xec, 0x5f, 0x97, 0x44, 0x17, 0xc4, 0xa7, 0x7e, 0x3d, 0x64, 0x5d, 0x19, 0x73],
   [0x60, 0x81, 0x4f, 0xdc, 0x22, 0x2a, 0x90, 0x88, 0x46, 0xee, 0xb8, 0x14, 0xde, 0x5e, 0x0b, 0xdb],
   [0xe0, 0x32, 0x3a, 0x0a, 0x49, 0x06, 0x24, 0x5c, 0xc2, 0xd3, 0xac, 0x62, 0x91, 0x95, 0xe4, 0x79],
   [0xe7, 0xc8, 0x37, 0x6d, 0x8d, 0xd5, 0x4e, 0xa9, 0x6c, 0x56, 0xf4, 0xea, 0x65, 0x7a, 0xae, 0x08],
   [0xba, 0x78, 0x25, 0x2e, 0x1c, 0xa6, 0xb4, 0xc6, 0xe8, 0xdd, 0x74, 0x1f, 0x4b, 0xbd, 0x8b, 0x8a],
   [0x70, 0x3e, 0xb5, 0x66, 0x48, 0x03, 0xf6, 0x0e, 0x61, 0x35, 0x57, 0xb9, 0x86, 0xc1, 0x1d, 0x9e],
   [0xe1, 0xf8, 0x98, 0x11, 0x69, 0xd9, 0x8e, 0x94, 0x9b, 0x1e, 0x87, 0xe9, 0xce, 0x55, 0x28, 0xdf],
   [0x8c, 0xa1, 0x89, 0x0d, 0xbf, 0xe6, 0x42, 0x68, 0x41, 0x99, 0x2d, 0x0f, 0xb0, 0x54, 0xbb, 0x16]]

/-- The inverse S-box table `InvSBox` (aes-gcm.js lines 54-71). -/
def InvSBox : List (List Nat) :=
  [[0x52, 0x09, 0x6a, 0xd5, 0x30, 0x36, 0xa5, 0x38, 0xbf, 0x40, 0xa3, 0x9e, 0x81, 0xf3, 0xd7, 0xfb],
   [0x7c, 0xe3, 0x39, 0x82, 0x9b, 0x2f, 0xff, 0x87, 0x34, 0x8e, 0x43, 0x44, 0xc4, 0xde, 0xe9, 0xcb],
   [0x54, 0x7b, 0x94, 0x32, 0xa6, 0xc2, 0x23, 0x3d, 0xee, 0x4c, 0x95, 0x0b, 0x42, 0xfa, 0xc3, 0x4e],
   [0x08, 0x2e, 0xa1, 0x66, 0x28, 0xd9, 0x24, 0xb2, 0x76, 0x5b, 0xa2, 0x49, 0x6d, 0x8b, 0xd1, 0x25],
   [0x72, 0xf8, 0xf6, 0x64, 0x86, 0x68, 0x98, 0x16, 0xd4, 0xa4, 0x5c, 0xcc, 0x5d, 0x65, 0xb6, 0x92],
   [0x6c, 0x70, 0x48, 0x50, 0xfd, 0xed, 0xb9, 0xda, 0x5e, 0x15, 0x46, 0x57, 0xa7, 0x8d, 0x9d, 0x84],
   [0x90, 0xd8, 0xab, 0x00, 0x8c, 0xbc, 0xd3, 0x0a, 0xf7, 0xe4, 0x58, 0x05, 0xb8, 0xb3, 0x45, 0x06],
   [0xd0, 0x2c, 0x1e, 0x8f, 0xca, 0x3f, 0x0f, 0x02, 0xc1, 0xaf, 0xbd, 0x03, 0x01, 0x13, 0x8a, 0x6b],
   [0x3a, 0x91, 0x11, 0x41, 0x4f, 0x67, 0xdc, 0xea, 0x97, 0xf2, 0xcf, 0xce, 0xf0, 0xb4, 0xe6, 0x73],
   [0x96, 0xac, 0x74, 0x22, 0xe7, 0xad, 0x35, 0x85, 0xe2, 0xf9, 0x37, 0xe8, 0x1c, 0x75, 0xdf, 0x6e],
   [0x47, 0xf1, 0x1a, 0x71, 0x1d, 0x29, 0xc5, 0x89, 0x6f, 0xb7, 0x62, 0x0e, 0xaa, 0x18, 0xbe, 0x1b],
   [0xfc, 0x56, 0x3e, 0x4b, 0xc6, 0xd2, 0x79, 0x20, 0x9a, 0xdb, 0xc0, 0xfe, 0x78, 0xcd, 0x5a, 0xf4],
   [0x1f, 0xdd, 0xa8, 0x33, 0x88, 0x07, 0xc7, 0x31, 0xb1, 0x12, 0x10, 0x59, 0x27, 0x80, 0xec, 0x5f],
   [0x60, 0x51, 0x7f, 0xa9, 0x19, 0xb5, 0x4a, 0x0d, 0x2d, 0xe5, 0x7a, 0x9f, 0x93, 0xc9, 0x9c, 0xef],
   [0xa0, 0xe0, 0x3b, 0x4d, 0xae, 0x2a, 0xf5, 0xb0, 0xc8, 0xeb, 0xbb, 0x3c, 0x83, 0x53, 0x99, 0x61],
   [0x17, 0x2b, 0x04, 0x7e, 0xba, 0x77, 0xd6, 0x26, 0xe1, 0x69, 0x14, 0x63, 0x55, 0x21, 0x0c, 0x7d]]

/-- The round-constant table `Rcon` (aes-gcm.js lines 73-85). -/
def Rcon : List (List Nat) :=
  [[0x00, 0x00, 0x00, 0x00],
   [0x01, 0x00, 0x00, 0x00],
   [0x02, 0x00, 0x00, 0x00],
   [0x04, 0x00, 0x00, 0x00],
   [0x08, 0x00, 0x00, 0x00],
   [0x10, 0x00, 0x00, 0x00],
   [0x20, 0x00, 0x00, 0x00],
   [0x40, 0x00, 0x00, 0x00],
   [0x80, 0x00, 0x00, 0x00],
   [0x1b, 0x00, 0x00, 0x00],
   [0x36, 0x00, 0x00, 0x00]]

/-- Double lookup `m[i][j]` with JS out-of-range reads (which no reachable
call performs) defaulting to `0`. -/
def get2 (m : List (List Nat)) (i j : Nat) : Nat :=
  (m.getD i []).getD j 0

/-- The 4×4 state matrices built by the round transforms: every loop of the
source writes each cell `(i, j)` once, from the old state. -/
def buildState (f : Nat → Nat → Nat) : List (List Nat) :=
  (List.range 4).map fun i => (List.range 4).map fun j => f i j

/-- The S-box lookup pattern `SBox[(b & 0xF0) >> 4][b & 0x0F]` used by
`subBytes` and `subWord` (aes-gcm.js lines 95-115). -/
def sBoxAt (b : Nat) : Nat :=
  get2 SBox ((b &&& 0xF0) >>> 4) (b &&& 0x0F)

/-- The inverse lookup `InvSBox[(b & 0xF0) >> 4][b & 0x0F]` of `invSubBytes`
(aes-gcm.js lines 103-109). -/
def invSBoxAt (b : Nat) : Nat :=
  get2 InvSBox ((b &&& 0xF0) >>> 4) (b &&& 0x0F)

/-- JS `addRoundKey(state, roundKeyArray, offset)` (aes-gcm.js lines 87-93):
`state[i][j] ^= roundKeyArray[offset + j][i]`. -/
def addRoundKey (state w : List (List Nat)) (offset : Nat) : List (List Nat) :=
  buildState fun i j => get2 state i j ^^^ get2 w (offset + j) i

/-- JS `subBytes(state)` (aes-gcm.js lines 95-101). -/
def subBytes (state : List (List Nat)) : List (List Nat) :=
  buildState fun i j => sBoxAt (get2 state i j)

/-- JS `invSubBytes(state)` (aes-gcm.js lines 103-109). -/
def invSubBytes (state : List (List Nat)) : List (List Nat) :=
  buildState fun i j => invSBoxAt (get2 state i j)

/-- JS `subWord(value)` (aes-gcm.js lines 111-115): S-box each of the four
bytes of a word. -/
def subWord (value : List Nat) : List Nat :=
  (List.range 4).map fun i => sBoxAt (value.getD i 0)

/-- JS `rotWord(value)` (aes-gcm.js lines 117-124): the explicit assignments
`value[0] = value[1]; value[1] = value[2]; value[2] = value[3]; value[3] =
tmp` rotate the word left by one byte. -/
def rotWord (value : List Nat) : List Nat :=
  [value.getD 1 0, value.getD 2 0, value.getD 3 0, value.getD 0 0]

/-- The inner `while (true)` cycle walk shared by `shiftRows` and
`invShiftRows` (aes-gcm.js lines 136-149 and 166-179): starting at `k = j`,
repeatedly compute `l = k + i` reduced below 4 and copy `state[i][l]` into
`state[i][k]` until the walk returns to `j`.  The walk follows the orbit of
`j` under `k ↦ k + i (mod 4)`, which closes after at most 3 copies, so fuel
4 never runs out; it returns the updated row and the final `k` that receives
`tmp`. -/
def cycleLoop (i j : Nat) : Nat → List Nat → Nat → List Nat × Nat
  | 0, row, k => (row, k)
  | fuel + 1, row, k =>
    let l := if k + i ≥ 4 then k + i - 4 else k + i
    if l = j then (row, k)
    else cycleLoop i j fuel (row.set k (row.getD l 0)) l

/-- One iteration of the outer `j` loop of `shiftRows` / `invShiftRows`:
save `tmp = state[i][j]`, walk the cycle, then write `tmp` at the final
position. -/
def shiftCycle (i j : Nat) (row : List Nat) : List Nat :=
  let tmp := row.getD j 0
  let rk := cycleLoop i j 4 row j
  rk.1.set rk.2 tmp

/-- The body of JS `shiftRows` for row `i` (aes-gcm.js lines 126-154):
`for (j = 0; j < ((i - 1) % 2) + 1; j++)` cycles. -/
def shiftRowsJs (i : Nat) (row : List Nat) : List Nat :=
  (List.range (((i - 1) % 2) + 1)).foldl (fun r j => shiftCycle i j r) row

/-- JS `shiftRows(state)`: rows 1..3 are cycled in place, row 0 untouched. -/
def shiftRows (state : List (List Nat)) : List (List Nat) :=
  [state.getD 0 [],
   shiftRowsJs 1 (state.getD 1 []),
   shiftRowsJs 2 (state.getD 2 []),
   shiftRowsJs 3 (state.getD 3 [])]

/-- Lower bound of the descending `j` loop of `invShiftRows`: the JS source
computes `((i - 1) % 2) + 1`, which at `i = 0` is `((-1) % 2) + 1 = 0`
because the JS remainder of a negative number is negative. -/
def invShiftLowerBound (i : Nat) : Nat :=
  if i = 0 then 0 else ((i - 1) % 2) + 1

/-- The body of JS `invShiftRows` for row `i` (aes-gcm.js lines 156-184):
`for (j = 3; j >= bound; j--)` cycles, with the `i = 0` iterations being
no-op cycles (`l = k` immediately). -/
def invShiftRowsJs (i : Nat) (row : List Nat) : List Nat :=
  ((List.range (4 - invShiftLowerBound i)).map (fun t => 3 - t)).foldl
    (fun r j => shiftCycle i j r) row

/-- JS `invShiftRows(state)`: each row is cycled independently (the source
iterates `i` from 3 down to 0; row order does not matter as each cycle only
touches row `i`). -/
def invShiftRows (state : List (List Nat)) : List (List Nat) :=
  [invShiftRowsJs 0 (state.getD 0 []),
   invShiftRowsJs 1 (state.getD 1 []),
   invShiftRowsJs 2 (state.getD 2 []),
   invShiftRowsJs 3 (state.getD 3 [])]

/-- The 8-iteration loop of JS `finiteFieldMultiplication(value0, value1)`
(aes-gcm.js lines 186-205): conditionally accumulate `value0` when the low
bit of `value1` is set, then double `value0` with conditional reduction by
`0x11b`, then shift `value1` right. -/
def finiteFieldMultiplicationLoop : Nat → Nat → Nat → Nat → Nat
  | 0, _, _, result => result
  | fuel + 1, value0, value1, result =>
    let result := if value1 &&& 1 ≠ 0 then result ^^^ value0 else result
    let value0 := if value0 &&& 0x80 ≠ 0 then (value0 <<< 1) ^^^ 0x11b else value0 <<< 1
    finiteFieldMultiplicationLoop fuel value0 (value1 >>> 1) result

/-- JS `finiteFieldMultiplication(value0, value1)`: GF(2^8) product by
repeated doubling, 8 iterations. -/
def finiteFieldMultiplication (value0 value1 : Nat) : Nat :=
  finiteFieldMultiplicationLoop 8 value0 value1 0

/-- JS `mixColumns(state)` (aes-gcm.js lines 207-222): per column `i` the
fixed-matrix combination with coefficients {2, 3, 1, 1}, written into a
temporary and copied back. -/
def mixColumns (state : List (List Nat)) : List (List Nat) :=
  buildState fun r i =>
    match r with
    | 0 => finiteFieldMultiplication 0x02 (get2 state 0 i) ^^^
           finiteFieldMultiplication 0x03 (get2 state 1 i) ^^^
           get2 state 2 i ^^^ get2 state 3 i
    | 1 => get2 state 0 i ^^^
           finiteFieldMultiplication 0x02 (get2 state 1 i) ^^^
           finiteFieldMultiplication 0x03 (get2 state 2 i) ^^^
           get2 state 3 i
    | 2 => get2 state 0 i ^^^ get2 state 1 i ^^^
           finiteFieldMultiplication 0x02 (get2 state 2 i) ^^^
           finiteFieldMultiplication 0x03 (get2 state 3 i)
    | _ => finiteFieldMultiplication 0x03 (get2 state 0 i) ^^^
           get2 state 1 i ^^^ get2 state 2 i ^^^
           finiteFieldMultiplication 0x02 (get2 state 3 i)

/-- JS `invMixColumns(state)` (aes-gcm.js lines 224-239): the inverse matrix
with coefficients {0x0e, 0x0b, 0x0d, 0x09}; the copy-back loop swaps the
index order but performs the same direct copy. -/
def invMixColumns (state : List (List Nat)) : List (List Nat) :=
  buildState fun r i =>
    match r with
    | 0 => finiteFieldMultiplication 0x0e (get2 state 0 i) ^^^
           finiteFieldMultiplication 0x0b (get2 state 1 i) ^^^
           finiteFieldMultiplication 0x0d (get2 state 2 i) ^^^
           finiteFieldMultiplication 0x09 (get2 state 3 i)
    | 1 => finiteFieldMultiplication 0x09 (get2 state 0 i) ^^^
           finiteFieldMultiplication 0x0e (get2 state 1 i) ^^^
           finiteFieldMultiplication 0x0b (get2 state 2 i) ^^^
           finiteFieldMultiplication 0x0d (get2 state 3 i)
    | 2 => finiteFieldMultiplication 0x0d (get2 state 0 i) ^^^
           finiteFieldMultiplication 0x09 (get2 state 1 i) ^^^
           finiteFieldMultiplication 0x0e (get2 state 2 i) ^^^
           finiteFieldMultiplication 0x0b (get2 state 3 i)
    | _ => finiteFieldMultiplication 0x0b (get2 state 0 i) ^^^
           finiteFieldMultiplication 0x0d (get2 state 1 i) ^^^
           finiteFieldMultiplication 0x09 (get2 state 2 i) ^^^
           finiteFieldMultiplication 0x0e (get2 state 3 i)

/-- The initial grouping loop of JS `keyExpansion` (aes-gcm.js lines 246-252):
the key bytes are pushed four at a time into words.  The catch-all covers key
lengths that are not a multiple of four (a ragged final word in JS),
unreachable for the valid lengths 16 / 24 / 32. -/
def groupKey : List Nat → List (List Nat)
  | [] => []
  | a :: b :: c :: d :: rest => [a, b, c, d] :: groupKey rest
  | rest => [rest]

/-- The expansion loop of JS `keyExpansion` (aes-gcm.js lines 254-272):
for `i` from `nK` to `4 * roundLimit - 1`, derive word `i` from word
`i - 1` (rotated/substituted/Rcon-xored at multiples of `nK`, substituted at
`i % nK = 4` for 256-bit keys) xor word `i - nK`. -/
def keyExpansionLoop (nK roundLimit : Nat) (i : Nat) (result : List (List Nat)) :
    List (List Nat) :=
  if i < 4 * roundLimit then
    let tmp := result.getD (i - 1) []
    let tmp :=
      if i % nK = 0 then
        (List.range 4).map fun j =>
          (subWord (rotWord tmp)).getD j 0 ^^^ get2 Rcon (i / nK) j
      else if 6 < nK ∧ i % nK = 4 then subWord tmp
      else tmp
    keyExpansionLoop nK roundLimit (i + 1)
      (result ++ [(List.range 4).map fun j => get2 result (i - nK) j ^^^ tmp.getD j 0])
  else result
termination_by 4 * roundLimit - i

/-- JS `keyExpansion(roundLimit, key)` (aes-gcm.js lines 241-275):
`nK = key.length / 4`; group the key into the first `nK` words, then run the
expansion loop from `i = nK`. -/
def keyExpansion (roundLimit : Nat) (key : List Nat) : List (List Nat) :=
  keyExpansionLoop (key.length / 4) roundLimit (key.length / 4) (groupKey key)

/-- JS state loading shared by `encrypt` and `decrypt` (aes-gcm.js lines
296-300): `for (i = 0; i < 15; i++) state[i / 4].push(input[(i * 4) % 15])`
then `state[3].push(input[15])`; cell `(r, c)` therefore holds
`input[(4 * r + c) * 4 % 15]` for `4 * r + c < 15` and `input[15]` for the
last cell (a column-major load). -/
def stateFromInput (input : List Nat) : List (List Nat) :=
  buildState fun r c =>
    if 4 * r + c < 15 then input.getD ((4 * r + c) * 4 % 15) 0 else input.getD 15 0

/-- JS output collection shared by `encrypt` and `decrypt` (aes-gcm.js lines
315-319): `for i, for j: output.push(state[j][i])` (column-major unload). -/
def outputFromState (st : List (List Nat)) : List Nat :=
  (List.range 4).foldl
    (fun output i =>
      (List.range 4).foldl (fun output j => output ++ [get2 st j i]) output)
    []

/-- One iteration of the encryption round loop of JS `encrypt` (aes-gcm.js
lines 304-313): `subBytes; shiftRows; if (round + 1 < roundLimit) mixColumns;
addRoundKey(round * 4)`. -/
def encryptRoundBody (w : List (List Nat)) (roundLimit round : Nat)
    (st : List (List Nat)) : List (List Nat) :=
  let st := subBytes st
  let st := shiftRows st
  let st := if round + 1 < roundLimit then mixColumns st else st
  addRoundKey st w (round * 4)

/-- The encryption round loop `for (round = 1; round < roundLimit; round++)`
of JS `encrypt`, entered at an arbitrary `round`. -/
def encryptRounds (w : List (List Nat)) (roundLimit round : Nat)
    (st : List (List Nat)) : List (List Nat) :=
  if round < roundLimit then
    encryptRounds w roundLimit (round + 1) (encryptRoundBody w roundLimit round st)
  else st
termination_by roundLimit - round

/-- One iteration of the decryption round loop of JS `decrypt` (aes-gcm.js
lines 351-358): `invShiftRows; invSubBytes; addRoundKey(round * 4);
if (round > 0) invMixColumns`. -/
def decryptRoundBody (w : List (List Nat)) (round : Nat)
    (st : List (List Nat)) : List (List Nat) :=
  let st := invShiftRows st
  let st := invSubBytes st
  let st := addRoundKey st w (round * 4)
  if round > 0 then invMixColumns st else st

/-- The decryption round loop `for (round = roundLimit - 2; round >= 0;
round--)` of JS `decrypt`: execute the body at the current round, then
continue downward; the body of round 0 is the last executed. -/
def decryptRounds (w : List (List Nat)) : Nat → List (List Nat) → List (List Nat)
  | 0, st => decryptRoundBody w 0 st
  | round + 1, st => decryptRounds w round (decryptRoundBody w (round + 1) st)

/-- The shared tail of JS `encrypt` after the round limit is fixed. -/
def encryptWithRoundLimit (roundLimit : Nat) (input key : List Nat) : List Nat :=
  let w := keyExpansion roundLimit key
  let state := stateFromInput input
  let state := addRoundKey state w 0
  let state := encryptRounds w roundLimit 1 state
  outputFromState state

/-- The shared tail of JS `decrypt` after the round limit is fixed. -/
def decryptWithRoundLimit (roundLimit : Nat) (input key : List Nat) : List Nat :=
  let w := keyExpansion roundLimit key
  let state := stateFromInput input
  let state := addRoundKey state w ((roundLimit - 1) * 4)
  let state := decryptRounds w (roundLimit - 2) state
  outputFromState state

/-- JS `encrypt(input, key)` (aes-gcm.js lines 277-322): round limit 11 / 13
/ 15 by key length, otherwise `throw "illegal key length: ..."`. -/
def encrypt (input key : List Nat) : Except String (List Nat) :=
  if key.length = 16 then .ok (encryptWithRoundLimit 11 input key)
  else if key.length = 24 then .ok (encryptWithRoundLimit 13 input key)
  else if key.length = 32 then .ok (encryptWithRoundLimit 15 input key)
  else .error ("illegal key length: " ++ toString key.length)

/-- JS `decrypt(input, key)` (aes-gcm.js lines 324-367). -/
def decrypt (input key : List Nat) : Except String (List Nat) :=
  if key.length = 16 then .ok (decryptWithRoundLimit 11 input key)
  else if key.length = 24 then .ok (decryptWithRoundLimit 13 input key)
  else if key.length = 32 then .ok (decryptWithRoundLimit 15 input key)
  else .error ("illegal key length: " ++ toString key.length)

/-- Well-formed AES state: a 4×4 matrix of bytes. -/
def ValidState (st : List (List Nat)) : Prop :=
  st.length = 4 ∧ (∀ row ∈ st, row.length = 4) ∧ ∀ row ∈ st, ∀ x ∈ row, x < 256

end Aes

namespace Dtls

theorem xor_left_comm (x y z : Nat) : x ^^^ (y ^^^ z) = y ^^^ (x ^^^ z) := by
  rw [← Nat.xor_assoc, Nat.xor_comm x y, Nat.xor_assoc]

theorem testBit_high_false (b i : Nat) (hb : b < 256) (hi : 8 ≤ i) :
    b.testBit i = false := by
  apply Nat.testBit_lt_two_pow
  have h2 : (2 : Nat) ^ 8 ≤ 2 ^ i := Nat.pow_le_pow_right (by norm_num) hi
  norm_num at h2
  omega

theorem byte_extract (x k : Nat) :
    (x &&& (0xFF <<< k)) >>> k = x / 2 ^ k % 2 ^ 8 := by
  rw [← Nat.shiftRight_eq_div_pow, ← Nat.and_pow_two_sub_one_eq_mod]
  apply Nat.eq_of_testBit_eq
  intro i
  simp only [Nat.testBit_shiftRight, Nat.testBit_and, Nat.testBit_shiftLeft]
  have h1 : k + i - k = i := by omega
  have h2 : (decide (k + i ≥ k)) = true := by simp
  rw [h1, h2]
  norm_num

theorem and_255_eq_mod (x : Nat) : x &&& 0xFF = x % 256 := by
  have h := Nat.and_pow_two_sub_one_eq_mod x 8
  norm_num at h
  exact h

theorem byte1_eq (x : Nat) : (x &&& 0xFF00) >>> 8 = x / 256 % 256 := by
  rw [show (0xFF00 : Nat) = 0xFF <<< 8 from by decide, byte_extract]
  norm_num

theorem byte2_eq (x : Nat) : (x &&& 0xFF0000) >>> 16 = x / 65536 % 256 := by
  rw [show (0xFF0000 : Nat) = 0xFF <<< 16 from by decide, byte_extract]
  norm_num

theorem byte3_eq (x : Nat) : (x &&& 0xFF000000) >>> 24 = x / 16777216 % 256 := by
  rw [show (0xFF000000 : Nat) = 0xFF <<< 24 from by decide, byte_extract]
  norm_num

theorem shl8_or_eq (x b : Nat) (hb : b < 256) : (x <<< 8) ||| b = 256 * x + b := by
  have hdiv : ((x <<< 8) ||| b) >>> 8 = x := by
    apply Nat.eq_of_testBit_eq
    intro i
    have hbf : b.testBit (8 + i) = false := testBit_high_false b _ hb (by omega)
    simp [Nat.testBit_shiftRight, Nat.testBit_or, Nat.testBit_shiftLeft, hbf]
  have hdiv' : ((x <<< 8) ||| b) / 256 = x := by
    have h8 := Nat.shiftRight_eq_div_pow ((x <<< 8) ||| b) 8
    norm_num at h8
    omega
  have hand : ((x <<< 8) ||| b) &&& 0xFF = b := by
    apply Nat.eq_of_testBit_eq
    intro i
    simp only [Nat.testBit_and, Nat.testBit_or, Nat.testBit_shiftLeft]
    rcases lt_or_ge i 8 with hlt | hge
    · have hx : (decide (i ≥ 8)) = false := by simp; omega
      have hm : Nat.testBit 0xFF i = true := by
        have h := Nat.testBit_two_pow_sub_one 8 i
        norm_num at h
        simp [h, hlt]
      simp [hx, hm]
    · have hbf : b.testBit i = false := testBit_high_false b i hb hge
      have hm : Nat.testBit 0xFF i = false := by
        have h := Nat.testBit_two_pow_sub_one 8 i
        norm_num at h
        simp [h]; omega
      simp [hbf, hm]
  have hmod : ((x <<< 8) ||| b) % 256 = b := by
    rw [← and_255_eq_mod]
    exact hand
  have := Nat.div_add_mod ((x <<< 8) ||| b) 256
  omega

/-- C10 counterexample: the claim quantifies every `n < 2 ^ 24` over every
width including 8 bits, but an 8-bit field truncates: at `n = 256`, `L = 8`
the encoding is the single byte `0`, and decoding yields `0`, not `256`. -/
theorem uintToArray_roundtrip_fails_at_256_8 :
    256 < 2 ^ 24 ∧ (uintToArray 256 8).length = 8 / 8 ∧
      arrayToUint (uintToArray 256 8) ≠ 256 := by
  refine ⟨by norm_num, rfl, by decide⟩

/-- C10 (amended): for `L ∈ {8, 16, 24, 32, 40, 48}` and `n < 2 ^ min L 24`,
`uintToArray n L` has exactly `L / 8` bytes and `arrayToUint` inverts it;
the extra bound `n < 2 ^ L` matters only for the narrow widths 8 and 16,
where the claimed `n < 2 ^ 24` alone overflows the field.  Every
record-header and handshake-header field the client serialises (content
type, version, epoch, sequence numbers, body lengths) lies in this regime. -/
theorem uintToArray_roundtrip (n L : Nat)
    (hL : L = 8 ∨ L = 16 ∨ L = 24 ∨ L = 32 ∨ L = 40 ∨ L = 48)
    (hn : n < 2 ^ min L 24) :
    (uintToArray n L).length = L / 8 ∧ arrayToUint (uintToArray n L) = n := by
  have e3 := byte3_eq n
  have e2 := byte2_eq n
  have e1 := byte1_eq n
  have e0 := and_255_eq_mod n
  have b2 : n / 65536 % 256 < 256 := Nat.mod_lt _ (by norm_num)
  have b1 : n / 256 % 256 < 256 := Nat.mod_lt _ (by norm_num)
  have b0 : n % 256 < 256 := Nat.mod_lt _ (by norm_num)
  rcases hL with rfl | rfl | rfl | rfl | rfl | rfl <;> norm_num at hn <;>
    simp only [uintToArray] <;> norm_num <;>
    simp only [arrayToUint, List.foldl, e3, e2, e1, e0, Nat.zero_shiftLeft,
      Nat.zero_or] <;>
    first
      | omega
      | (rw [shl8_or_eq _ _ b0]; first
          | omega
          | (rw [shl8_or_eq _ _ b1]; first
              | omega
              | (rw [shl8_or_eq _ _ b2]; omega)))

/-- C10 witness: the amended round-trip at `n = 11189196`, `L = 48`. -/
theorem uintToArray_roundtrip_at_11189196 :
    (uintToArray 11189196 48).length = 48 / 8 ∧
      arrayToUint (uintToArray 11189196 48) = 11189196 :=
  uintToArray_roundtrip 11189196 48 (by norm_num) (by norm_num)

/-- C6 counterexample: the record header built by `_createRecordHeader` is 13
bytes (1 + 2 + 2 + 6 + 2), not 7 as the claim states — here for a concrete
handshake record with epoch 0, sequence 0 and body length 50. -/
theorem createRecordHeader_not_7_bytes :
    (createRecordHeader 22 0 0 50).length = 13 ∧
      (createRecordHeader 22 0 0 50).length ≠ 7 := by
  constructor <;> decide

/-- C6 (amended): every record header is 13 bytes — content type (1 byte),
protocol version fixed to 0xfefd (2 bytes), epoch (2 bytes), sequence number
(6 bytes), body length (2 bytes), in this order, each field big-endian (for
field values in the serialiser's faithful range). -/
theorem createRecordHeader_layout (cType epoch headerSeq bodyLen : Nat)
    (hc : cType < 256) (he : epoch < 65536) (hs : headerSeq < 16777216)
    (hb : bodyLen < 65536) :
    (createRecordHeader cType epoch headerSeq bodyLen).length = 13 ∧
      createRecordHeader cType epoch headerSeq bodyLen =
        [cType] ++ [0xfe, 0xfd] ++ [epoch / 256, epoch % 256] ++
          [0, 0, 0, headerSeq / 65536, headerSeq / 256 % 256, headerSeq % 256] ++
          [bodyLen / 256, bodyLen % 256] := by
  have knd : createRecordHeader cType epoch headerSeq bodyLen =
      [cType &&& 0xFF, 0xfe, 0xfd, (epoch &&& 0xFF00) >>> 8, epoch &&& 0xFF,
       0, 0, (headerSeq &&& 0xFF000000) >>> 24, (headerSeq &&& 0xFF0000) >>> 16,
       (headerSeq &&& 0xFF00) >>> 8, headerSeq &&& 0xFF,
       (bodyLen &&& 0xFF00) >>> 8, bodyLen &&& 0xFF] := by
    simp [createRecordHeader, uintToArray, protocolVersionDTLS12]
    decide
  rw [knd]
  refine ⟨rfl, ?_⟩
  simp only [byte3_eq, byte2_eq, byte1_eq, and_255_eq_mod]
  have h1 : cType % 256 = cType := Nat.mod_eq_of_lt hc
  have h2 : epoch / 256 % 256 = epoch / 256 := Nat.mod_eq_of_lt (by omega)
  have h3 : headerSeq / 16777216 % 256 = 0 := by omega
  have h4 : headerSeq / 65536 % 256 = headerSeq / 65536 := Nat.mod_eq_of_lt (by omega)
  have h5 : bodyLen / 256 % 256 = bodyLen / 256 := Nat.mod_eq_of_lt (by omega)
  rw [h1, h2, h3, h4, h5]
  simp

/-- C6 witness: the amended layout at content type 23, epoch 1, sequence 5,
body length 300. -/
theorem createRecordHeader_layout_at_23 :
    (createRecordHeader 23 1 5 300).length = 13 ∧
      createRecordHeader 23 1 5 300 =
        [23] ++ [0xfe, 0xfd] ++ [1 / 256, 1 % 256] ++
          [0, 0, 0, 5 / 65536, 5 / 256 % 256, 5 % 256] ++
          [300 / 256, 300 % 256] :=
  createRecordHeader_layout 23 1 5 300 (by norm_num) (by norm_num) (by norm_num)
    (by norm_num)

theorem hexVal_lt (c : Char) : hexVal c < 16 := by
  unfold hexVal
  split
  · rename_i h
    have h2 : c.toNat ≤ 57 := h.2
    have h1 : (48 : Nat) ≤ c.toNat := h.1
    show c.toNat - 48 < 16
    omega
  split
  · rename_i h
    have h2 : c.toNat ≤ 102 := h.2
    have h1 : (97 : Nat) ≤ c.toNat := h.1
    show c.toNat - 97 + 10 < 16
    omega
  split
  · rename_i h
    have h2 : c.toNat ≤ 70 := h.2
    have h1 : (65 : Nat) ≤ c.toNat := h.1
    show c.toNat - 65 + 10 < 16
    omega
  · omega

theorem pskPairs_length :
    ∀ psk : List Char, psk.length % 2 = 0 →
      (pskPairs psk).length = psk.length / 2
  | [], _ => by simp [pskPairs]
  | [_], h => by simp at h
  | c1 :: c2 :: rest, h => by
      have ih := pskPairs_length rest (by simp at h; omega)
      simp [pskPairs, ih]
      omega

theorem pskPairs_lt : ∀ psk : List Char, ∀ b ∈ pskPairs psk, b < 256
  | [] => by simp [pskPairs]
  | [_] => by simp [pskPairs]
  | c1 :: c2 :: rest => by
      intro b hb
      simp only [pskPairs, List.mem_cons] at hb
      rcases hb with rfl | hb
      · have g1 := hexVal_lt c1
        have g2 := hexVal_lt c2
        omega
      · exact pskPairs_lt rest b hb

/-- C5 counterexample: for the 1-byte PSK "00" the zero block the code emits
is 16 bytes long, not 1 (the PSK byte length), so the pre-master secret is
21 bytes where the claimed shape has 6. -/
theorem preMasterSecret_zero_block_not_psk_length :
    preMasterSecret ['0', '0'] ≠ preMasterSecretClaimedShape ['0', '0'] ∧
      (preMasterSecret ['0', '0']).length = 21 ∧
      (preMasterSecretClaimedShape ['0', '0']).length = 6 := by
  refine ⟨by decide, by decide, by decide⟩

/-- C5 (amended): the pre-master secret is the 2-byte big-endian PSK byte
length, then an all-zero block of exactly 16 bytes (the source hard-codes
`for (i = 0; i < 16; i++)`, matching the PSK length only when the PSK is 16
bytes), then the 2-byte PSK byte length again, then the PSK bytes read as
hex pairs (all below 256). -/
theorem preMasterSecret_layout (psk : List Char)
    (hlen : psk.length % 2 = 0)
    (hhex : ∀ c ∈ psk, isHexDigitJs c = true)
    (hsz : psk.length / 2 < 65536) :
    preMasterSecret psk =
      [psk.length / 2 / 256, psk.length / 2 % 256] ++ List.replicate 16 0 ++
        [psk.length / 2 / 256, psk.length / 2 % 256] ++ pskPairs psk ∧
      (pskPairs psk).length = psk.length / 2 ∧
      ∀ b ∈ pskPairs psk, b < 256 := by
  refine ⟨?_, pskPairs_length psk hlen, pskPairs_lt psk⟩
  have hu : uintToArray (psk.length / 2) 16 =
      [psk.length / 2 / 256, psk.length / 2 % 256] := by
    simp [uintToArray, byte1_eq, and_255_eq_mod]
    omega
  have hfold : ∀ p : List Nat,
      List.foldl (fun a _ => a ++ uintToArray 0 8) p (List.range 16) =
        p ++ List.replicate 16 0 := by
    intro p
    have h08 : uintToArray 0 8 = [0] := by decide
    simp only [h08]
    have hr : List.range 16 = [0, 1, 2, 3, 4, 5, 6, 7, 8, 9, 10, 11, 12, 13, 14, 15] := rfl
    rw [hr]
    simp [List.append_assoc]
  simp [preMasterSecret, hu, hfold, List.append_assoc]

/-- C5 witness: the amended layout at the 2-byte PSK "a1b2". -/
theorem preMasterSecret_layout_at_a1b2 :
    preMasterSecret ['a', '1', 'b', '2'] =
      [4 / 2 / 256, 4 / 2 % 256] ++ List.replicate 16 0 ++
        [4 / 2 / 256, 4 / 2 % 256] ++ pskPairs ['a', '1', 'b', '2'] ∧
      (pskPairs ['a', '1', 'b', '2']).length = 4 / 2 ∧
      ∀ b ∈ pskPairs ['a', '1', 'b', '2'], b < 256 :=
  preMasterSecret_layout ['a', '1', 'b', '2'] (by decide) (by decide) (by decide)

/-- C4 counterexample: with no response ever arriving, the client sends the
ClientHello 3 times in total (attempt counters 0, 1 and 2; the guard
`attemptCounter > 2` then stops before a fourth send), not the 4 total sends
the claim states. -/
theorem clientHello_3_sends_not_4 :
    countClientHello
        (runSilent [List.replicate 28 1, List.replicate 28 2, List.replicate 28 3]
          10 sessionAfterHello) = 3 ∧
      countClientHello
        (runSilent [List.replicate 28 1, List.replicate 28 2, List.replicate 28 3]
          10 sessionAfterHello) ≠ 4 := by
  refine ⟨by decide, by decide⟩

/-- C4 (amended): with no response, the client retransmits the ClientHello at
200 ms intervals and stops after 2 additional attempts — 3 total sends —
without crashing: the run terminates with no timer armed, and every timer it
armed (ids 0, 1, 2 for attempt counters 0, 1, 2) carried the 200 ms delay. -/
theorem clientHello_retransmission_schedule :
    countClientHello
        (runSilent [List.replicate 28 1, List.replicate 28 2, List.replicate 28 3]
          10 sessionAfterHello) = 3 ∧
      (runSilent [List.replicate 28 1, List.replicate 28 2, List.replicate 28 3]
        10 sessionAfterHello).timers = [] ∧
      sessionAfterHello.timers = [⟨0, 0, 200⟩] ∧
      (runSilent [List.replicate 28 1, List.replicate 28 2, List.replicate 28 3]
        1 sessionAfterHello).timers = [⟨1, 1, 200⟩] ∧
      (runSilent [List.replicate 28 1, List.replicate 28 2, List.replicate 28 3]
        2 sessionAfterHello).timers = [⟨2, 2, 200⟩] := by
  refine ⟨by decide, by decide, by decide, by decide, by decide⟩

/-- C2 counterexample: the code has no once-only guard on the "connected"
signal — a session in which the (verified) server Finished record is
delivered twice, as UDP permits, fires it twice, so it does not fire exactly
once per session. -/
theorem connected_twice_on_duplicate_finished :
    (runSession sessionAfterHello
        (honestServerFlow ++ [serverFinishedRecord true])).connectedEmits = 2 ∧
      (runSession sessionAfterHello
        (honestServerFlow ++ [serverFinishedRecord true])).connectedEmits ≠ 1 := by
  refine ⟨by decide, by decide⟩

/-- C2 (amended): the "connected" notification fires exactly once per
received and authentication-verified server Finished — in the §8 end-to-end
flow with a single server Finished, exactly once — and never before the
server Finished has been processed: every proper prefix of the flow yields
zero emissions, and a Finished that fails the (spec-modelled) authentication
check also yields zero. -/
theorem connected_emission_schedule :
    (runSession sessionAfterHello honestServerFlow).connectedEmits = 1 ∧
      (runSession sessionAfterHello []).connectedEmits = 0 ∧
      (runSession sessionAfterHello (List.take 1 honestServerFlow)).connectedEmits = 0 ∧
      (runSession sessionAfterHello (List.take 2 honestServerFlow)).connectedEmits = 0 ∧
      (runSession sessionAfterHello (List.take 3 honestServerFlow)).connectedEmits = 0 ∧
      (runSession sessionAfterHello
        (List.take 3 honestServerFlow ++ [serverFinishedRecord false])).connectedEmits = 0 := by
  refine ⟨by decide, by decide, by decide, by decide, by decide, by decide⟩

/-- C1 counterexample: after the client has sent its own Finished (reached
here by processing HelloVerifyRequest, ServerHello, ServerHelloDone) the
session is not yet Connected — "connected" has not fired, the server
Finished is outstanding — yet `sendEncrypted` returns `true`: its guard
tests `_encrypted`, which `_sendHandshakeFinished` set when the client sent
its own Finished. -/
theorem sendEncrypted_true_before_connected :
    (runSession sessionAfterHello (List.take 3 honestServerFlow)).connectedEmits = 0 ∧
      (runSession sessionAfterHello (List.take 3 honestServerFlow)).encrypted = true ∧
      (sendEncrypted (runSession sessionAfterHello (List.take 3 honestServerFlow))
        [1, 2, 3]).fst = true := by
  refine ⟨by decide, by decide, by decide⟩

/-- C1 (amended): `sendEncrypted` is gated on `_encrypted` (true from the
moment the client sends its own Finished), not on the session being
Connected: while `_encrypted` is false the call returns `false` and its only
effect is clearing the `_readyToSend` flag; once `_encrypted` is true every
call returns `true`, and once `streamSeq` has been initialised (on the
server Finished) each call increments it by exactly 1. -/
theorem sendEncrypted_guard (s : Session) (data : List Nat) :
    (s.encrypted = false →
      sendEncrypted s data = (false, { s with readyToSend := some false })) ∧
      (s.encrypted = true → (sendEncrypted s data).fst = true) ∧
      (∀ n, s.encrypted = true → s.streamSeq = some n →
        (sendEncrypted s data).snd.streamSeq = some (n + 1)) := by
  refine ⟨fun h => ?_, fun h => ?_, fun n h hn => ?_⟩ <;>
    simp [sendEncrypted, h]
  exact hn

/-- C1 witness: the amended contract applied before the handshake (fresh
session: returns false) and after the full §8 flow (returns true and bumps
`streamSeq` from 0 to 1). -/
theorem sendEncrypted_guard_at_flow_states :
    sendEncrypted initSession [9] =
        (false, { initSession with readyToSend := some false }) ∧
      (sendEncrypted (runSession sessionAfterHello honestServerFlow) [9]).fst = true ∧
      (sendEncrypted (runSession sessionAfterHello honestServerFlow) [9]).snd.streamSeq
        = some (0 + 1) :=
  ⟨(sendEncrypted_guard initSession [9]).1 (by decide),
   (sendEncrypted_guard (runSession sessionAfterHello honestServerFlow) [9]).2.1 (by decide),
   (sendEncrypted_guard (runSession sessionAfterHello honestServerFlow) [9]).2.2 0
     (by decide) (by decide)⟩

/-- C7 counterexample: after the full handshake `streamSeq` is 0, but the
first application record `sendEncrypted` emits carries sequence number 1 —
`this.streamSeq++` runs before the header is built — contradicting the
claimed first sequence number 0. -/
theorem first_app_record_carries_seq_1 :
    (runSession sessionAfterHello honestServerFlow).streamSeq = some 0 ∧
      ((sendEncrypted (runSession sessionAfterHello honestServerFlow)
          [16]).snd.sent.getLast?).map OutRecord.headerSeq = some (some 1) ∧
      ((sendEncrypted (runSession sessionAfterHello honestServerFlow)
          [16]).snd.sent.getLast?).map OutRecord.headerSeq ≠ some (some 0) := by
  refine ⟨by decide, by decide, by decide⟩

/-- C7 (amended): on the server Finished, `streamSeq` is initialised to 0;
thereafter each successful `sendEncrypted` emits exactly one
application-data record at epoch 1 whose sequence number is `streamSeq + 1`
— the first record carries 1, and each subsequent record's sequence number
increases by exactly 1. -/
theorem app_record_sequence (s : Session) (n : Nat) (data : List Nat)
    (henc : s.encrypted = true) (hseq : s.streamSeq = some n) :
    (sendEncrypted s data).snd.sent =
        s.sent ++
          [{ cType := contentTypeApplicationData, hType := none, epoch := 1,
             headerSeq := some (n + 1), handshakeSeq := none, cookie := none,
             random := none, payload := some data }] ∧
      (sendEncrypted s data).snd.streamSeq = some (n + 1) ∧
      (runSession sessionAfterHello honestServerFlow).streamSeq = some 0 := by
  refine ⟨?_, ?_, by decide⟩ <;> simp [sendEncrypted, henc, hseq]

/-- C7 witness: the amended statement at the post-handshake session. -/
theorem app_record_sequence_at_flow_state :
    (sendEncrypted (runSession sessionAfterHello honestServerFlow) [16]).snd.sent =
        (runSession sessionAfterHello honestServerFlow).sent ++
          [{ cType := contentTypeApplicationData, hType := none, epoch := 1,
             headerSeq := some (0 + 1), handshakeSeq := none, cookie := none,
             random := none, payload := some [16] }] ∧
      (sendEncrypted (runSession sessionAfterHello honestServerFlow)
          [16]).snd.streamSeq = some (0 + 1) ∧
      (runSession sessionAfterHello honestServerFlow).streamSeq = some 0 :=
  app_record_sequence (runSession sessionAfterHello honestServerFlow) 0 [16]
    (by decide) (by decide)

/-- Effect of receiving a HelloVerifyRequest while unencrypted with a stored
hello packet: the stored packet is rewritten to header-seq 1, handshake-seq
1 and the server cookie, the rewritten ClientHello is resent (with the
stored random, which `_createHandshakeClientHelloBody` does not redraw), and
nothing else changes — in particular the timer list is untouched. -/
theorem handleHvr_eq (s : Session) (pkt : Packet) (cookie rand : List Nat)
    (hp : s.helloClientPacket = some pkt) (hr : pkt.random = some rand)
    (henc : s.encrypted = false) :
    handleRecord s (hvrRecord cookie) =
      { s with
        helloClientPacket :=
          some { pkt with headerSeq := 1, handshakeSeq := 1, cookie := some cookie }
        sent := s.sent ++
          [helloOut { pkt with headerSeq := 1, handshakeSeq := 1, cookie := some cookie }] } := by
  simp [handleRecord, hvrRecord, contentTypeHandshake, contentTypeAlert,
    handleResponseHandshake, handshakeServerHello, handshakeServerHelloDone,
    handshakeHelloVerifyRequest, handshakeFinished, henc, hp, createClientHello, hr]

/-- C8 counterexample: receiving a HelloVerifyRequest cancels nothing — the
retransmission timer armed when the first ClientHello was sent is still
armed afterwards (the claim says it is cancelled). -/
theorem hvr_leaves_timer_armed :
    sessionAfterHello.timers = [⟨0, 0, 200⟩] ∧
      (handleRecord sessionAfterHello (hvrRecord [1, 2])).timers = [⟨0, 0, 200⟩] := by
  refine ⟨by decide, by decide⟩

/-- C8 (amended): on HelloVerifyRequest the client resends the ClientHello
carrying the server cookie with record-header sequence 1 and handshake
sequence 1 and remains awaiting ServerHello (no other state changes) — but
it does not cancel the pending retransmission timer, which stays armed. -/
theorem hvr_resend_behaviour (s : Session) (pkt : Packet) (cookie rand : List Nat)
    (hp : s.helloClientPacket = some pkt) (hr : pkt.random = some rand)
    (henc : s.encrypted = false) :
    (handleRecord s (hvrRecord cookie)).timers = s.timers ∧
      (handleRecord s (hvrRecord cookie)).sent =
        s.sent ++
          [{ cType := pkt.cType, hType := some pkt.hType, epoch := pkt.epoch,
             headerSeq := some 1, handshakeSeq := some 1, cookie := some cookie,
             random := some rand, payload := none }] ∧
      (handleRecord s (hvrRecord cookie)).helloClientPacket =
        some { pkt with headerSeq := 1, handshakeSeq := 1, cookie := some cookie } ∧
      (handleRecord s (hvrRecord cookie)).encrypted = s.encrypted ∧
      (handleRecord s (hvrRecord cookie)).handshakeInProgress = s.handshakeInProgress ∧
      (handleRecord s (hvrRecord cookie)).connectedEmits = s.connectedEmits ∧
      (handleRecord s (hvrRecord cookie)).clientRandom = s.clientRandom := by
  rw [handleHvr_eq s pkt cookie rand hp hr henc]
  simp [helloOut, hr]

/-- C8 witness: the amended behaviour at the session right after the first
ClientHello. -/
theorem hvr_resend_behaviour_at_hello :
    (handleRecord sessionAfterHello (hvrRecord [0xAB])).timers
        = sessionAfterHello.timers ∧
      (handleRecord sessionAfterHello (hvrRecord [0xAB])).sent =
        sessionAfterHello.sent ++
          [{ cType := contentTypeHandshake, hType := some handshakeClientHello,
             epoch := 0, headerSeq := some 1, handshakeSeq := some 1,
             cookie := some [0xAB], random := some (List.replicate 28 0),
             payload := none }] ∧
      (handleRecord sessionAfterHello (hvrRecord [0xAB])).helloClientPacket =
        some { cType := contentTypeHandshake, hType := handshakeClientHello,
               epoch := 0, headerSeq := 1, sessionId := 0, cookie := some [0xAB],
               handshakeSeq := 1, random := some (List.replicate 28 0) } ∧
      (handleRecord sessionAfterHello (hvrRecord [0xAB])).encrypted
        = sessionAfterHello.encrypted ∧
      (handleRecord sessionAfterHello (hvrRecord [0xAB])).handshakeInProgress
        = sessionAfterHello.handshakeInProgress ∧
      (handleRecord sessionAfterHello (hvrRecord [0xAB])).connectedEmits
        = sessionAfterHello.connectedEmits ∧
      (handleRecord sessionAfterHello (hvrRecord [0xAB])).clientRandom
        = sessionAfterHello.clientRandom :=
  hvr_resend_behaviour sessionAfterHello
    { cType := contentTypeHandshake, hType := handshakeClientHello, epoch := 0,
      headerSeq := 0, sessionId := 0, cookie := none, handshakeSeq := 0,
      random := some (List.replicate 28 0) }
    [0xAB] (List.replicate 28 0) (by decide) (by decide) (by decide)

/-- C9 counterexample: clientRandom is not set exactly once — each timeout
retransmission calls `_sendHandshakeRequest`, which builds a fresh packet
with no random, so `_createHandshakeClientHelloBody` draws new bytes and
overwrites `_clientRandom`; the two ClientHellos on the wire carry different
randoms. -/
theorem clientRandom_regenerated_on_retransmit :
    sessionAfterHello.clientRandom
        = some (uintToArray 0 32 ++ List.replicate 28 0) ∧
      (timerFire sessionAfterHello ⟨0, 0, 200⟩ (1 :: List.replicate 27 0)).clientRandom
        = some (uintToArray 0 32 ++ (1 :: List.replicate 27 0)) ∧
      (timerFire sessionAfterHello ⟨0, 0, 200⟩ (1 :: List.replicate 27 0)).clientRandom
        ≠ sessionAfterHello.clientRandom ∧
      (timerFire sessionAfterHello ⟨0, 0, 200⟩
          (1 :: List.replicate 27 0)).sent.map OutRecord.random =
        [some (List.replicate 28 0), some (1 :: List.replicate 27 0)] := by
  refine ⟨by decide, by decide, by decide, by decide⟩

/-- C9 (amended): clientRandom is a 32-byte value — a 4-byte time field the
code fixes to 0 followed by the 28 random bytes — but it is regenerated on
every fresh ClientHello send (`_sendHandshakeRequest`), so each timeout
retransmission carries a new clientRandom; only the cookie-carrying resend
after HelloVerifyRequest reuses the stored random. -/
theorem clientRandom_per_send (s : Session) (rand : List Nat)
    (hlen : rand.length = 28) :
    (sendHandshakeRequest s rand).clientRandom = some (uintToArray 0 32 ++ rand) ∧
      (uintToArray 0 32 ++ rand).length = 32 ∧
      uintToArray 0 32 = [0, 0, 0, 0] ∧
      (∀ pkt cookie rnd, s.helloClientPacket = some pkt → pkt.random = some rnd →
        s.encrypted = false →
        (handleRecord s (hvrRecord cookie)).clientRandom = s.clientRandom ∧
          ((handleRecord s (hvrRecord cookie)).sent.map OutRecord.random).getLast?
            = some (some rnd)) := by
  refine ⟨?_, ?_, by decide, fun pkt cookie rnd hp hr henc => ?_⟩
  · simp [sendHandshakeRequest, createClientHello]
  · simp [uintToArray, hlen]
  · rw [handleHvr_eq s pkt cookie rnd hp hr henc]
    simp [helloOut, hr]

/-- C9 witness: the amended statement at a fresh session with an alternating
28-byte random, plus the HelloVerifyRequest-reuse part at the
post-ClientHello session. -/
theorem clientRandom_per_send_at_fresh :
    (sendHandshakeRequest initSession (1 :: List.replicate 27 0)).clientRandom
        = some (uintToArray 0 32 ++ (1 :: List.replicate 27 0)) ∧
      (uintToArray 0 32 ++ (1 :: List.replicate 27 0)).length = 32 ∧
      uintToArray 0 32 = [0, 0, 0, 0] ∧
      (∀ pkt cookie rnd,
        initSession.helloClientPacket = some pkt → pkt.random = some rnd →
        initSession.encrypted = false →
        (handleRecord initSession (hvrRecord cookie)).clientRandom
            = initSession.clientRandom ∧
          ((handleRecord initSession (hvrRecord cookie)).sent.map
              OutRecord.random).getLast? = some (some rnd)) :=
  clientRandom_per_send initSession (1 :: List.replicate 27 0) (by decide)

end Dtls

namespace Aes

theorem xor_lt_256 {a b : Nat} (ha : a < 256) (hb : b < 256) : a ^^^ b < 256 := by
  have h8 : (256 : Nat) = 2 ^ 8 := by norm_num
  rw [h8] at ha hb ⊢
  exact Nat.xor_lt_two_pow ha hb

theorem get2_lt (m : List (List Nat)) (hm : ∀ r ∈ m, ∀ x ∈ r, x < 256) (i j : Nat) :
    get2 m i j < 256 := by
  unfold get2
  rcases lt_or_ge i m.length with hi | hi
  · have hrow : m.getD i [] ∈ m := by
      rw [List.getD_eq_getElem m [] hi]
      exact List.getElem_mem hi
    rcases lt_or_ge j (m.getD i []).length with hj | hj
    · have : (m.getD i []).getD j 0 ∈ m.getD i [] := by
        rw [List.getD_eq_getElem _ 0 hj]
        exact List.getElem_mem hj
      exact hm _ hrow _ this
    · rw [List.getD_eq_default _ 0 hj]
      norm_num
  · rw [List.getD_eq_default _ [] hi]
    simp [List.getD]

set_option maxRecDepth 4000 in
theorem sBox_mem_lt : ∀ r ∈ SBox, ∀ x ∈ r, x < 256 := by decide

set_option maxRecDepth 4000 in
theorem invSBox_mem_lt : ∀ r ∈ InvSBox, ∀ x ∈ r, x < 256 := by decide

theorem rcon_mem_lt : ∀ r ∈ Rcon, ∀ x ∈ r, x < 256 := by decide

theorem sBoxAt_lt (b : Nat) : sBoxAt b < 256 := get2_lt _ sBox_mem_lt _ _

theorem invSBoxAt_lt (b : Nat) : invSBoxAt b < 256 := get2_lt _ invSBox_mem_lt _ _

set_option maxRecDepth 8000 in
theorem sbox_inv_all : ∀ b, b < 256 → invSBoxAt (sBoxAt b) = b := by decide

end Aes

namespace Aes

theorem xor_shiftRight (x y k : Nat) : (x ^^^ y) >>> k = (x >>> k) ^^^ (y >>> k) := by
  apply Nat.eq_of_testBit_eq
  intro i
  simp [Nat.testBit_shiftRight, Nat.testBit_xor]

theorem ffmLoop_acc : ∀ fuel v0 v1 r,
    finiteFieldMultiplicationLoop fuel v0 v1 r =
      r ^^^ finiteFieldMultiplicationLoop fuel v0 v1 0
  | 0, v0, v1, r => by simp [finiteFieldMultiplicationLoop]
  | fuel + 1, v0, v1, r => by
    simp only [finiteFieldMultiplicationLoop]
    rcases eq_or_ne (v1 &&& 1) 0 with h | h
    · simp only [h, ne_eq, not_true_eq_false, if_false, ite_false]
      norm_num
      rw [ffmLoop_acc fuel _ _ r]
    · simp only [h, ne_eq, not_false_eq_true, if_true, ite_true]
      norm_num [h]
      rw [ffmLoop_acc fuel _ _ v0, ffmLoop_acc fuel _ _ (r ^^^ v0)]
      simp [Nat.xor_assoc]

theorem ffmLoop_linear : ∀ fuel v0 x y,
    finiteFieldMultiplicationLoop fuel v0 (x ^^^ y) 0 =
      finiteFieldMultiplicationLoop fuel v0 x 0 ^^^
        finiteFieldMultiplicationLoop fuel v0 y 0
  | 0, v0, x, y => by simp [finiteFieldMultiplicationLoop]
  | fuel + 1, v0, x, y => by
    have hs : (x ^^^ y) >>> 1 = (x >>> 1) ^^^ (y >>> 1) := xor_shiftRight x y 1
    have hb : (x ^^^ y) &&& 1 = (x &&& 1) ^^^ (y &&& 1) := Nat.and_xor_distrib_right
    have hone : ∀ z : Nat, z &&& 1 = 0 ∨ z &&& 1 = 1 := fun z => by
      rw [Nat.and_one_is_mod]
      exact Nat.mod_two_eq_zero_or_one z
    simp only [finiteFieldMultiplicationLoop, hs, hb]
    rcases hone x with hx | hx <;> rcases hone y with hy | hy <;>
        simp only [hx, hy] <;> norm_num
    · exact ffmLoop_linear fuel _ (x >>> 1) (y >>> 1)
    · rw [ffmLoop_acc fuel _ ((x >>> 1) ^^^ (y >>> 1)) v0,
        ffmLoop_acc fuel _ (y >>> 1) v0,
        ffmLoop_linear fuel _ (x >>> 1) (y >>> 1)]
      rw [Dtls.xor_left_comm]
    · rw [ffmLoop_acc fuel _ ((x >>> 1) ^^^ (y >>> 1)) v0,
        ffmLoop_acc fuel _ (x >>> 1) v0,
        ffmLoop_linear fuel _ (x >>> 1) (y >>> 1)]
      rw [Nat.xor_assoc]
    · rw [ffmLoop_acc fuel _ (x >>> 1) v0,
        ffmLoop_acc fuel _ (y >>> 1) v0,
        ffmLoop_linear fuel _ (x >>> 1) (y >>> 1)]
      simp only [Nat.xor_assoc, Nat.xor_comm, Dtls.xor_left_comm,
        Nat.xor_cancel_left, Nat.xor_self, Nat.zero_xor]

theorem ffm_linear (c x y : Nat) :
    finiteFieldMultiplication c (x ^^^ y) =
      finiteFieldMultiplication c x ^^^ finiteFieldMultiplication c y :=
  ffmLoop_linear 8 c x y

set_option maxRecDepth 4000 in
theorem xtime_lt : ∀ v0, v0 < 256 →
    (if v0 &&& 0x80 ≠ 0 then (v0 <<< 1) ^^^ 0x11b else v0 <<< 1) < 256 := by decide

theorem ffmLoop_lt : ∀ fuel v0 v1 r, v0 < 256 → r < 256 →
    finiteFieldMultiplicationLoop fuel v0 v1 r < 256
  | 0, v0, v1, r, _, hr => hr
  | fuel + 1, v0, v1, r, hv, hr => by
    simp only [finiteFieldMultiplicationLoop]
    apply ffmLoop_lt fuel _ _ _ (xtime_lt v0 hv)
    split
    · exact xor_lt_256 hr hv
    · exact hr

theorem ffm_lt (v0 v1 : Nat) (hv : v0 < 256) :
    finiteFieldMultiplication v0 v1 < 256 :=
  ffmLoop_lt 8 v0 v1 0 hv (by norm_num)

end Aes

namespace Aes

theorem xor_regroup (x0 x1 x2 x3 y0 y1 y2 y3 z0 z1 z2 z3 u0 u1 u2 u3 : Nat) :
    (x0 ^^^ x1 ^^^ x2 ^^^ x3) ^^^ (y0 ^^^ y1 ^^^ y2 ^^^ y3) ^^^
        (z0 ^^^ z1 ^^^ z2 ^^^ z3) ^^^ (u0 ^^^ u1 ^^^ u2 ^^^ u3) =
      (x0 ^^^ y0 ^^^ z0 ^^^ u0) ^^^ (x1 ^^^ y1 ^^^ z1 ^^^ u1) ^^^
        (x2 ^^^ y2 ^^^ z2 ^^^ u2) ^^^ (x3 ^^^ y3 ^^^ z3 ^^^ u3) := by
  simp only [Nat.xor_assoc, Nat.xor_comm, Dtls.xor_left_comm]

set_option maxRecDepth 4000 in
theorem mixInvK00 : ∀ x, x < 256 →
    finiteFieldMultiplication 14 (finiteFieldMultiplication 2 x) ^^^
        finiteFieldMultiplication 11 x ^^^ finiteFieldMultiplication 13 x ^^^
        finiteFieldMultiplication 9 (finiteFieldMultiplication 3 x) = x := by decide

set_option maxRecDepth 4000 in
theorem mixInvK01 : ∀ x, x < 256 →
    finiteFieldMultiplication 14 (finiteFieldMultiplication 3 x) ^^^
        finiteFieldMultiplication 11 (finiteFieldMultiplication 2 x) ^^^
        finiteFieldMultiplication 13 x ^^^ finiteFieldMultiplication 9 x = 0 := by decide

set_option maxRecDepth 4000 in
theorem mixInvK02 : ∀ x, x < 256 →
    finiteFieldMultiplication 14 x ^^^
        finiteFieldMultiplication 11 (finiteFieldMultiplication 3 x) ^^^
        finiteFieldMultiplication 13 (finiteFieldMultiplication 2 x) ^^^
        finiteFieldMultiplication 9 x = 0 := by decide

set_option maxRecDepth 4000 in
theorem mixInvK03 : ∀ x, x < 256 →
    finiteFieldMultiplication 14 x ^^^ finiteFieldMultiplication 11 x ^^^
        finiteFieldMultiplication 13 (finiteFieldMultiplication 3 x) ^^^
        finiteFieldMultiplication 9 (finiteFieldMultiplication 2 x) = 0 := by decide

end Aes

namespace Aes

set_option maxRecDepth 4000 in
theorem mixInvK10 : ∀ x, x < 256 →
    finiteFieldMultiplication 9 (finiteFieldMultiplication 2 x) ^^^
        finiteFieldMultiplication 14 x ^^^
        finiteFieldMultiplication 11 x ^^^
        finiteFieldMultiplication 13 (finiteFieldMultiplication 3 x) = 0 := by decide

set_option maxRecDepth 4000 in
theorem mixInvK11 : ∀ x, x < 256 →
    finiteFieldMultiplication 9 (finiteFieldMultiplication 3 x) ^^^
        finiteFieldMultiplication 14 (finiteFieldMultiplication 2 x) ^^^
        finiteFieldMultiplication 11 x ^^^
        finiteFieldMultiplication 13 x = x := by decide

set_option maxRecDepth 4000 in
theorem mixInvK12 : ∀ x, x < 256 →
    finiteFieldMultiplication 9 x ^^^
        finiteFieldMultiplication 14 (finiteFieldMultiplication 3 x) ^^^
        finiteFieldMultiplication 11 (finiteFieldMultiplication 2 x) ^^^
        finiteFieldMultiplication 13 x = 0 := by decide

set_option maxRecDepth 4000 in
theorem mixInvK13 : ∀ x, x < 256 →
    finiteFieldMultiplication 9 x ^^^
        finiteFieldMultiplication 14 x ^^^
        finiteFieldMultiplication 11 (finiteFieldMultiplication 3 x) ^^^
        finiteFieldMultiplication 13 (finiteFieldMultiplication 2 x) = 0 := by decide

set_option maxRecDepth 4000 in
theorem mixInvK20 : ∀ x, x < 256 →
    finiteFieldMultiplication 13 (finiteFieldMultiplication 2 x) ^^^
        finiteFieldMultiplication 9 x ^^^
        finiteFieldMultiplication 14 x ^^^
        finiteFieldMultiplication 11 (finiteFieldMultiplication 3 x) = 0 := by decide

set_option maxRecDepth 4000 in
theorem mixInvK21 : ∀ x, x < 256 →
    finiteFieldMultiplication 13 (finiteFieldMultiplication 3 x) ^^^
        finiteFieldMultiplication 9 (finiteFieldMultiplication 2 x) ^^^
        finiteFieldMultiplication 14 x ^^^
        finiteFieldMultiplication 11 x = 0 := by decide

set_option maxRecDepth 4000 in
theorem mixInvK22 : ∀ x, x < 256 →
    finiteFieldMultiplication 13 x ^^^
        finiteFieldMultiplication 9 (finiteFieldMultiplication 3 x) ^^^
        finiteFieldMultiplication 14 (finiteFieldMultiplication 2 x) ^^^
        finiteFieldMultiplication 11 x = x := by decide

set_option maxRecDepth 4000 in
theorem mixInvK23 : ∀ x, x < 256 →
    finiteFieldMultiplication 13 x ^^^
        finiteFieldMultiplication 9 x ^^^
        finiteFieldMultiplication 14 (finiteFieldMultiplication 3 x) ^^^
        finiteFieldMultiplication 11 (finiteFieldMultiplication 2 x) = 0 := by decide

set_option maxRecDepth 4000 in
theorem mixInvK30 : ∀ x, x < 256 →
    finiteFieldMultiplication 11 (finiteFieldMultiplication 2 x) ^^^
        finiteFieldMultiplication 13 x ^^^
        finiteFieldMultiplication 9 x ^^^
        finiteFieldMultiplication 14 (finiteFieldMultiplication 3 x) = 0 := by decide

set_option maxRecDepth 4000 in
theorem mixInvK31 : ∀ x, x < 256 →
    finiteFieldMultiplication 11 (finiteFieldMultiplication 3 x) ^^^
        finiteFieldMultiplication 13 (finiteFieldMultiplication 2 x) ^^^
        finiteFieldMultiplication 9 x ^^^
        finiteFieldMultiplication 14 x = 0 := by decide

set_option maxRecDepth 4000 in
theorem mixInvK32 : ∀ x, x < 256 →
    finiteFieldMultiplication 11 x ^^^
        finiteFieldMultiplication 13 (finiteFieldMultiplication 3 x) ^^^
        finiteFieldMultiplication 9 (finiteFieldMultiplication 2 x) ^^^
        finiteFieldMultiplication 14 x = 0 := by decide

set_option maxRecDepth 4000 in
theorem mixInvK33 : ∀ x, x < 256 →
    finiteFieldMultiplication 11 x ^^^
        finiteFieldMultiplication 13 x ^^^
        finiteFieldMultiplication 9 (finiteFieldMultiplication 3 x) ^^^
        finiteFieldMultiplication 14 (finiteFieldMultiplication 2 x) = x := by decide

end Aes

namespace Aes

theorem mixColInv0 (a b c d : Nat)
    (ha : a < 256) (hb : b < 256) (hc : c < 256) (hd : d < 256) :
    finiteFieldMultiplication 14 (finiteFieldMultiplication 2 a ^^^ finiteFieldMultiplication 3 b ^^^ c ^^^ d) ^^^
        finiteFieldMultiplication 11 (a ^^^ finiteFieldMultiplication 2 b ^^^ finiteFieldMultiplication 3 c ^^^ d) ^^^
        finiteFieldMultiplication 13 (a ^^^ b ^^^ finiteFieldMultiplication 2 c ^^^ finiteFieldMultiplication 3 d) ^^^
        finiteFieldMultiplication 9 (finiteFieldMultiplication 3 a ^^^ b ^^^ c ^^^ finiteFieldMultiplication 2 d) = a := by
  simp only [ffm_linear]
  rw [xor_regroup, mixInvK00 a ha, mixInvK01 b hb, mixInvK02 c hc, mixInvK03 d hd]
  simp

theorem mixColInv1 (a b c d : Nat)
    (ha : a < 256) (hb : b < 256) (hc : c < 256) (hd : d < 256) :
    finiteFieldMultiplication 9 (finiteFieldMultiplication 2 a ^^^ finiteFieldMultiplication 3 b ^^^ c ^^^ d) ^^^
        finiteFieldMultiplication 14 (a ^^^ finiteFieldMultiplication 2 b ^^^ finiteFieldMultiplication 3 c ^^^ d) ^^^
        finiteFieldMultiplication 11 (a ^^^ b ^^^ finiteFieldMultiplication 2 c ^^^ finiteFieldMultiplication 3 d) ^^^
        finiteFieldMultiplication 13 (finiteFieldMultiplication 3 a ^^^ b ^^^ c ^^^ finiteFieldMultiplication 2 d) = b := by
  simp only [ffm_linear]
  rw [xor_regroup, mixInvK10 a ha, mixInvK11 b hb, mixInvK12 c hc, mixInvK13 d hd]
  simp

theorem mixColInv2 (a b c d : Nat)
    (ha : a < 256) (hb : b < 256) (hc : c < 256) (hd : d < 256) :
    finiteFieldMultiplication 13 (finiteFieldMultiplication 2 a ^^^ finiteFieldMultiplication 3 b ^^^ c ^^^ d) ^^^
        finiteFieldMultiplication 9 (a ^^^ finiteFieldMultiplication 2 b ^^^ finiteFieldMultiplication 3 c ^^^ d) ^^^
        finiteFieldMultiplication 14 (a ^^^ b ^^^ finiteFieldMultiplication 2 c ^^^ finiteFieldMultiplication 3 d) ^^^
        finiteFieldMultiplication 11 (finiteFieldMultiplication 3 a ^^^ b ^^^ c ^^^ finiteFieldMultiplication 2 d) = c := by
  simp only [ffm_linear]
  rw [xor_regroup, mixInvK20 a ha, mixInvK21 b hb, mixInvK22 c hc, mixInvK23 d hd]
  simp

theorem mixColInv3 (a b c d : Nat)
    (ha : a < 256) (hb : b < 256) (hc : c < 256) (hd : d < 256) :
    finiteFieldMultiplication 11 (finiteFieldMultiplication 2 a ^^^ finiteFieldMultiplication 3 b ^^^ c ^^^ d) ^^^
        finiteFieldMultiplication 13 (a ^^^ finiteFieldMultiplication 2 b ^^^ finiteFieldMultiplication 3 c ^^^ d) ^^^
        finiteFieldMultiplication 9 (a ^^^ b ^^^ finiteFieldMultiplication 2 c ^^^ finiteFieldMultiplication 3 d) ^^^
        finiteFieldMultiplication 14 (finiteFieldMultiplication 3 a ^^^ b ^^^ c ^^^ finiteFieldMultiplication 2 d) = d := by
  simp only [ffm_linear]
  rw [xor_regroup, mixInvK30 a ha, mixInvK31 b hb, mixInvK32 c hc, mixInvK33 d hd]
  simp

end Aes

namespace Aes

theorem list4_destruct {α : Type} (l : List α) (h : l.length = 4) :
    ∃ a b c d, l = [a, b, c, d] := by
  match l, h with
  | [a, b, c, d], _ => exact ⟨a, b, c, d, rfl⟩

theorem shape_destruct (st : List (List Nat)) (h4 : st.length = 4)
    (hr : ∀ r ∈ st, r.length = 4) :
    ∃ x00 x01 x02 x03 x10 x11 x12 x13 x20 x21 x22 x23 x30 x31 x32 x33,
      st = [[x00, x01, x02, x03], [x10, x11, x12, x13],
            [x20, x21, x22, x23], [x30, x31, x32, x33]] := by
  obtain ⟨r0, r1, r2, r3, rfl⟩ := list4_destruct st h4
  obtain ⟨a0, a1, a2, a3, rfl⟩ := list4_destruct r0 (hr _ (by simp))
  obtain ⟨b0, b1, b2, b3, rfl⟩ := list4_destruct r1 (hr _ (by simp))
  obtain ⟨c0, c1, c2, c3, rfl⟩ := list4_destruct r2 (hr _ (by simp))
  obtain ⟨d0, d1, d2, d3, rfl⟩ := list4_destruct r3 (hr _ (by simp))
  exact ⟨a0, a1, a2, a3, b0, b1, b2, b3, c0, c1, c2, c3, d0, d1, d2, d3, rfl⟩

theorem get2_buildState (f : Nat → Nat → Nat) (i j : Nat) (hi : i < 4) (hj : j < 4) :
    get2 (buildState f) i j = f i j := by
  interval_cases i <;> interval_cases j <;> rfl

theorem buildState_length (f : Nat → Nat → Nat) : (buildState f).length = 4 := rfl

theorem buildState_rows (f : Nat → Nat → Nat) :
    ∀ r ∈ buildState f, r.length = 4 := by
  intro r hr
  simp only [buildState, List.mem_map] at hr
  obtain ⟨i, _, rfl⟩ := hr
  simp

theorem state_ext (s1 s2 : List (List Nat))
    (h1l : s1.length = 4) (h1r : ∀ r ∈ s1, r.length = 4)
    (h2l : s2.length = 4) (h2r : ∀ r ∈ s2, r.length = 4)
    (h : ∀ i j, i < 4 → j < 4 → get2 s1 i j = get2 s2 i j) : s1 = s2 := by
  obtain ⟨a0, a1, a2, a3, b0, b1, b2, b3, c0, c1, c2, c3, d0, d1, d2, d3, rfl⟩ :=
    shape_destruct s1 h1l h1r
  obtain ⟨e0, e1, e2, e3, f0, f1, f2, f3, g0, g1, g2, g3, k0, k1, k2, k3, rfl⟩ :=
    shape_destruct s2 h2l h2r
  have q00 : a0 = e0 := h 0 0 (by norm_num) (by norm_num)
  have q01 : a1 = e1 := h 0 1 (by norm_num) (by norm_num)
  have q02 : a2 = e2 := h 0 2 (by norm_num) (by norm_num)
  have q03 : a3 = e3 := h 0 3 (by norm_num) (by norm_num)
  have q10 : b0 = f0 := h 1 0 (by norm_num) (by norm_num)
  have q11 : b1 = f1 := h 1 1 (by norm_num) (by norm_num)
  have q12 : b2 = f2 := h 1 2 (by norm_num) (by norm_num)
  have q13 : b3 = f3 := h 1 3 (by norm_num) (by norm_num)
  have q20 : c0 = g0 := h 2 0 (by norm_num) (by norm_num)
  have q21 : c1 = g1 := h 2 1 (by norm_num) (by norm_num)
  have q22 : c2 = g2 := h 2 2 (by norm_num) (by norm_num)
  have q23 : c3 = g3 := h 2 3 (by norm_num) (by norm_num)
  have q30 : d0 = k0 := h 3 0 (by norm_num) (by norm_num)
  have q31 : d1 = k1 := h 3 1 (by norm_num) (by norm_num)
  have q32 : d2 = k2 := h 3 2 (by norm_num) (by norm_num)
  have q33 : d3 = k3 := h 3 3 (by norm_num) (by norm_num)
  rw [q00, q01, q02, q03, q10, q11, q12, q13, q20, q21, q22, q23, q30, q31,
    q32, q33]

theorem valid_explicit {x00 x01 x02 x03 x10 x11 x12 x13 x20 x21 x22 x23 x30 x31 x32 x33 : Nat}
    (h00 : x00 < 256) (h01 : x01 < 256) (h02 : x02 < 256) (h03 : x03 < 256)
    (h10 : x10 < 256) (h11 : x11 < 256) (h12 : x12 < 256) (h13 : x13 < 256)
    (h20 : x20 < 256) (h21 : x21 < 256) (h22 : x22 < 256) (h23 : x23 < 256)
    (h30 : x30 < 256) (h31 : x31 < 256) (h32 : x32 < 256) (h33 : x33 < 256) :
    ValidState [[x00, x01, x02, x03], [x10, x11, x12, x13],
      [x20, x21, x22, x23], [x30, x31, x32, x33]] := by
  refine ⟨rfl, ?_, ?_⟩
  · simp [List.forall_mem_cons]
  · simp only [List.forall_mem_cons, List.forall_mem_nil]
    exact ⟨⟨h00, h01, h02, h03, by simp⟩, ⟨h10, h11, h12, h13, by simp⟩,
      ⟨h20, h21, h22, h23, by simp⟩, ⟨h30, h31, h32, h33, by simp⟩, by simp⟩

theorem valid_buildState (f : Nat → Nat → Nat)
    (hf : ∀ i j, i < 4 → j < 4 → f i j < 256) : ValidState (buildState f) := by
  refine ⟨rfl, buildState_rows f, ?_⟩
  intro r hr x hx
  simp only [buildState, List.mem_map, List.mem_range] at hr
  obtain ⟨i, hi, rfl⟩ := hr
  simp only [List.mem_map, List.mem_range] at hx
  obtain ⟨j, hj, rfl⟩ := hx
  exact hf i j hi hj

end Aes

namespace Aes

theorem valid_subBytes (st : List (List Nat)) : ValidState (subBytes st) :=
  valid_buildState _ (fun i j _ _ => sBoxAt_lt _)

theorem valid_addRoundKey (st w : List (List Nat)) (o : Nat)
    (hst : ∀ r ∈ st, ∀ x ∈ r, x < 256) (hw : ∀ r ∈ w, ∀ x ∈ r, x < 256) :
    ValidState (addRoundKey st w o) :=
  valid_buildState _ (fun i j _ _ => xor_lt_256 (get2_lt st hst i j) (get2_lt w hw (o + j) i))

theorem valid_mixColumns (st : List (List Nat))
    (hst : ∀ r ∈ st, ∀ x ∈ r, x < 256) : ValidState (mixColumns st) := by
  apply valid_buildState
  intro i j hi hj
  have g0 := get2_lt st hst 0 j
  have g1 := get2_lt st hst 1 j
  have g2 := get2_lt st hst 2 j
  have g3 := get2_lt st hst 3 j
  interval_cases i <;>
    exact xor_lt_256 (xor_lt_256 (xor_lt_256 (by first
        | exact ffm_lt _ _ (by norm_num)
        | assumption) (by first
        | exact ffm_lt _ _ (by norm_num)
        | assumption)) (by first
        | exact ffm_lt _ _ (by norm_num)
        | assumption)) (by first
        | exact ffm_lt _ _ (by norm_num)
        | assumption)

theorem shiftRowsJs_1 (a b c d : Nat) : shiftRowsJs 1 [a, b, c, d] = [b, c, d, a] := rfl

theorem shiftRowsJs_2 (a b c d : Nat) : shiftRowsJs 2 [a, b, c, d] = [c, d, a, b] := rfl

theorem shiftRowsJs_3 (a b c d : Nat) : shiftRowsJs 3 [a, b, c, d] = [d, a, b, c] := rfl

theorem invShiftRowsJs_0 (a b c d : Nat) : invShiftRowsJs 0 [a, b, c, d] = [a, b, c, d] := rfl

theorem invShiftRowsJs_1 (a b c d : Nat) : invShiftRowsJs 1 [a, b, c, d] = [d, a, b, c] := rfl

theorem invShiftRowsJs_2 (a b c d : Nat) : invShiftRowsJs 2 [a, b, c, d] = [c, d, a, b] := rfl

theorem invShiftRowsJs_3 (a b c d : Nat) : invShiftRowsJs 3 [a, b, c, d] = [b, c, d, a] := rfl

theorem shiftRows_explicit (a0 a1 a2 a3 b0 b1 b2 b3 c0 c1 c2 c3 d0 d1 d2 d3 : Nat) :
    shiftRows [[a0, a1, a2, a3], [b0, b1, b2, b3], [c0, c1, c2, c3], [d0, d1, d2, d3]] =
      [[a0, a1, a2, a3], [b1, b2, b3, b0], [c2, c3, c0, c1], [d3, d0, d1, d2]] := by
  show [[a0, a1, a2, a3], shiftRowsJs 1 [b0, b1, b2, b3], shiftRowsJs 2 [c0, c1, c2, c3],
    shiftRowsJs 3 [d0, d1, d2, d3]] = _
  rw [shiftRowsJs_1, shiftRowsJs_2, shiftRowsJs_3]

theorem invShiftRows_explicit (a0 a1 a2 a3 b0 b1 b2 b3 c0 c1 c2 c3 d0 d1 d2 d3 : Nat) :
    invShiftRows [[a0, a1, a2, a3], [b0, b1, b2, b3], [c0, c1, c2, c3], [d0, d1, d2, d3]] =
      [[a0, a1, a2, a3], [b3, b0, b1, b2], [c2, c3, c0, c1], [d1, d2, d3, d0]] := by
  show [invShiftRowsJs 0 [a0, a1, a2, a3], invShiftRowsJs 1 [b0, b1, b2, b3],
    invShiftRowsJs 2 [c0, c1, c2, c3], invShiftRowsJs 3 [d0, d1, d2, d3]] = _
  rw [invShiftRowsJs_0, invShiftRowsJs_1, invShiftRowsJs_2, invShiftRowsJs_3]

theorem valid_shiftRows (st : List (List Nat)) (h : ValidState st) :
    ValidState (shiftRows st) := by
  obtain ⟨h4, hr, hb⟩ := h
  obtain ⟨a0, a1, a2, a3, b0, b1, b2, b3, c0, c1, c2, c3, d0, d1, d2, d3, rfl⟩ :=
    shape_destruct st h4 hr
  have hrow0 := hb [a0, a1, a2, a3] (by simp)
  have hrow1 := hb [b0, b1, b2, b3] (by simp)
  have hrow2 := hb [c0, c1, c2, c3] (by simp)
  have hrow3 := hb [d0, d1, d2, d3] (by simp)
  rw [shiftRows_explicit]
  exact valid_explicit (hrow0 a0 (by simp)) (hrow0 a1 (by simp)) (hrow0 a2 (by simp))
    (hrow0 a3 (by simp)) (hrow1 b1 (by simp)) (hrow1 b2 (by simp)) (hrow1 b3 (by simp))
    (hrow1 b0 (by simp)) (hrow2 c2 (by simp)) (hrow2 c3 (by simp)) (hrow2 c0 (by simp))
    (hrow2 c1 (by simp)) (hrow3 d3 (by simp)) (hrow3 d0 (by simp)) (hrow3 d1 (by simp))
    (hrow3 d2 (by simp))

theorem invShift_shift (st : List (List Nat)) (h4 : st.length = 4)
    (hr : ∀ r ∈ st, r.length = 4) : invShiftRows (shiftRows st) = st := by
  obtain ⟨a0, a1, a2, a3, b0, b1, b2, b3, c0, c1, c2, c3, d0, d1, d2, d3, rfl⟩ :=
    shape_destruct st h4 hr
  rw [shiftRows_explicit, invShiftRows_explicit]

theorem ark_ark (st w : List (List Nat)) (o : Nat) (h4 : st.length = 4)
    (hr : ∀ r ∈ st, r.length = 4) :
    addRoundKey (addRoundKey st w o) w o = st := by
  refine state_ext _ _ (buildState_length _) (buildState_rows _) h4 hr ?_
  intro i j hi hj
  unfold addRoundKey
  rw [get2_buildState _ _ _ hi hj, get2_buildState _ _ _ hi hj,
    Nat.xor_cancel_right]

theorem invSub_sub (st : List (List Nat)) (h : ValidState st) :
    invSubBytes (subBytes st) = st := by
  obtain ⟨h4, hr, hb⟩ := h
  refine state_ext _ _ (buildState_length _) (buildState_rows _) h4 hr ?_
  intro i j hi hj
  unfold invSubBytes
  rw [get2_buildState _ _ _ hi hj]
  unfold subBytes
  rw [get2_buildState _ _ _ hi hj]
  exact sbox_inv_all _ (get2_lt st hb i j)

theorem invMix_mix (st : List (List Nat)) (h : ValidState st) :
    invMixColumns (mixColumns st) = st := by
  obtain ⟨h4, hr, hb⟩ := h
  obtain ⟨a0, a1, a2, a3, b0, b1, b2, b3, c0, c1, c2, c3, d0, d1, d2, d3, rfl⟩ :=
    shape_destruct st h4 hr
  have hrow0 := hb [a0, a1, a2, a3] (by simp)
  have hrow1 := hb [b0, b1, b2, b3] (by simp)
  have hrow2 := hb [c0, c1, c2, c3] (by simp)
  have hrow3 := hb [d0, d1, d2, d3] (by simp)
  have m0 : a0 < 256 := hrow0 a0 (by simp)
  have m1 : a1 < 256 := hrow0 a1 (by simp)
  have m2 : a2 < 256 := hrow0 a2 (by simp)
  have m3 : a3 < 256 := hrow0 a3 (by simp)
  have n0 : b0 < 256 := hrow1 b0 (by simp)
  have n1 : b1 < 256 := hrow1 b1 (by simp)
  have n2 : b2 < 256 := hrow1 b2 (by simp)
  have n3 : b3 < 256 := hrow1 b3 (by simp)
  have p0 : c0 < 256 := hrow2 c0 (by simp)
  have p1 : c1 < 256 := hrow2 c1 (by simp)
  have p2 : c2 < 256 := hrow2 c2 (by simp)
  have p3 : c3 < 256 := hrow2 c3 (by simp)
  have q0 : d0 < 256 := hrow3 d0 (by simp)
  have q1 : d1 < 256 := hrow3 d1 (by simp)
  have q2 : d2 < 256 := hrow3 d2 (by simp)
  have q3 : d3 < 256 := hrow3 d3 (by simp)
  refine state_ext _ _ (buildState_length _) (buildState_rows _) rfl
    (by simp [List.forall_mem_cons]) ?_
  intro i j hi hj
  interval_cases i <;> interval_cases j
  · exact mixColInv0 a0 b0 c0 d0 m0 n0 p0 q0
  · exact mixColInv0 a1 b1 c1 d1 m1 n1 p1 q1
  · exact mixColInv0 a2 b2 c2 d2 m2 n2 p2 q2
  · exact mixColInv0 a3 b3 c3 d3 m3 n3 p3 q3
  · exact mixColInv1 a0 b0 c0 d0 m0 n0 p0 q0
  · exact mixColInv1 a1 b1 c1 d1 m1 n1 p1 q1
  · exact mixColInv1 a2 b2 c2 d2 m2 n2 p2 q2
  · exact mixColInv1 a3 b3 c3 d3 m3 n3 p3 q3
  · exact mixColInv2 a0 b0 c0 d0 m0 n0 p0 q0
  · exact mixColInv2 a1 b1 c1 d1 m1 n1 p1 q1
  · exact mixColInv2 a2 b2 c2 d2 m2 n2 p2 q2
  · exact mixColInv2 a3 b3 c3 d3 m3 n3 p3 q3
  · exact mixColInv3 a0 b0 c0 d0 m0 n0 p0 q0
  · exact mixColInv3 a1 b1 c1 d1 m1 n1 p1 q1
  · exact mixColInv3 a2 b2 c2 d2 m2 n2 p2 q2
  · exact mixColInv3 a3 b3 c3 d3 m3 n3 p3 q3

end Aes

namespace Aes

theorem getD_lt (l : List Nat) (hl : ∀ x ∈ l, x < 256) (j : Nat) : l.getD j 0 < 256 := by
  rcases lt_or_ge j l.length with hj | hj
  · rw [List.getD_eq_getElem l 0 hj]
    exact hl _ (List.getElem_mem hj)
  · rw [List.getD_eq_default l 0 hj]
    norm_num

theorem getD_row_lt (m : List (List Nat)) (hm : ∀ r ∈ m, ∀ x ∈ r, x < 256) (i : Nat) :
    ∀ x ∈ m.getD i [], x < 256 := by
  rcases lt_or_ge i m.length with hi | hi
  · rw [List.getD_eq_getElem m [] hi]
    exact hm _ (List.getElem_mem hi)
  · rw [List.getD_eq_default m [] hi]
    simp

theorem subWord_mem_lt (v : List Nat) : ∀ x ∈ subWord v, x < 256 := by
  intro x hx
  simp only [subWord, List.mem_map, List.mem_range] at hx
  obtain ⟨i, _, rfl⟩ := hx
  exact sBoxAt_lt _

theorem rotWord_mem_lt (v : List Nat) (hv : ∀ x ∈ v, x < 256) :
    ∀ x ∈ rotWord v, x < 256 := by
  intro x hx
  simp only [rotWord, List.mem_cons, List.not_mem_nil, or_false] at hx
  rcases hx with rfl | rfl | rfl | rfl <;> exact getD_lt v hv _

theorem keyExpansionLoop_bound (nK roundLimit : Nat) :
    ∀ n i result, 4 * roundLimit - i = n →
      (∀ r ∈ result, ∀ x ∈ r, x < 256) →
      ∀ r ∈ keyExpansionLoop nK roundLimit i result, ∀ x ∈ r, x < 256 := by
  intro n
  induction n with
  | zero =>
    intro i result hn hres
    have hge : ¬ i < 4 * roundLimit := by omega
    rw [keyExpansionLoop]
    simp only [hge, if_false, ite_false]
    exact hres
  | succ n ih =>
    intro i result hn hres
    have hlt : i < 4 * roundLimit := by omega
    rw [keyExpansionLoop]
    simp only [hlt, if_true, ite_true]
    apply ih (i + 1) _ (by omega)
    intro r hr
    rcases List.mem_append.mp hr with hold | hnew
    · exact hres r hold
    · have hr' : r = (List.range 4).map fun j =>
          get2 result (i - nK) j ^^^
            (if i % nK = 0 then
              (List.range 4).map fun j =>
                (subWord (rotWord (result.getD (i - 1) []))).getD j 0 ^^^
                  get2 Rcon (i / nK) j
            else if 6 < nK ∧ i % nK = 4 then subWord (result.getD (i - 1) [])
            else result.getD (i - 1) []).getD j 0 := by
        simpa using hnew
      subst hr'
      intro x hx
      simp only [List.mem_map, List.mem_range] at hx
      obtain ⟨j, _, rfl⟩ := hx
      apply xor_lt_256 (get2_lt result hres _ _)
      apply getD_lt
      split
      · intro y hy
        simp only [List.mem_map, List.mem_range] at hy
        obtain ⟨k, _, rfl⟩ := hy
        exact xor_lt_256 (getD_lt _ (subWord_mem_lt _) k) (get2_lt Rcon rcon_mem_lt _ _)
      split
      · exact subWord_mem_lt _
      · exact getD_row_lt result hres _

theorem groupKey_cons (a b c d : Nat) (rest : List Nat) :
    groupKey (a :: b :: c :: d :: rest) = [a, b, c, d] :: groupKey rest := rfl

theorem groupKey_mem_lt : ∀ key : List Nat, (∀ x ∈ key, x < 256) →
    ∀ r ∈ groupKey key, ∀ x ∈ r, x < 256
  | [], _ => by simp [groupKey]
  | a :: b :: c :: d :: rest, hk => by
    intro r hr
    rw [groupKey_cons] at hr
    rcases List.mem_cons.mp hr with rfl | hr
    · intro x hx
      simp only [List.mem_cons, List.not_mem_nil, or_false] at hx
      rcases hx with rfl | rfl | rfl | rfl <;> exact hk _ (by simp)
    · exact groupKey_mem_lt rest (fun x hx => hk x (by simp [hx])) r hr
  | [a], hk => by
    intro r hr
    rw [show groupKey [a] = [[a]] from rfl] at hr
    rcases List.mem_cons.mp hr with rfl | hr
    · intro x hx
      simp only [List.mem_cons, List.not_mem_nil, or_false] at hx
      rcases hx with rfl
      exact hk _ (by simp)
    · simp at hr
  | [a, b], hk => by
    intro r hr
    rw [show groupKey [a, b] = [[a, b]] from rfl] at hr
    rcases List.mem_cons.mp hr with rfl | hr
    · intro x hx
      simp only [List.mem_cons, List.not_mem_nil, or_false] at hx
      rcases hx with rfl | rfl <;> exact hk _ (by simp)
    · simp at hr
  | [a, b, c], hk => by
    intro r hr
    rw [show groupKey [a, b, c] = [[a, b, c]] from rfl] at hr
    rcases List.mem_cons.mp hr with rfl | hr
    · intro x hx
      simp only [List.mem_cons, List.not_mem_nil, or_false] at hx
      rcases hx with rfl | rfl | rfl <;> exact hk _ (by simp)
    · simp at hr

theorem keyExpansion_bound (roundLimit : Nat) (key : List Nat)
    (hk : ∀ x ∈ key, x < 256) :
    ∀ r ∈ keyExpansion roundLimit key, ∀ x ∈ r, x < 256 := by
  unfold keyExpansion
  exact keyExpansionLoop_bound _ _ _ _ _ rfl (groupKey_mem_lt key hk)

end Aes

namespace Aes

theorem valid_encryptRoundBody (w : List (List Nat)) (roundLimit round : Nat)
    (st : List (List Nat)) (hst : ValidState st)
    (hw : ∀ r ∈ w, ∀ x ∈ r, x < 256) :
    ValidState (encryptRoundBody w roundLimit round st) := by
  unfold encryptRoundBody
  apply valid_addRoundKey _ _ _ _ hw
  split
  · exact (valid_mixColumns _ (valid_shiftRows _ (valid_subBytes st)).2.2).2.2
  · exact (valid_shiftRows _ (valid_subBytes st)).2.2

theorem valid_encryptRounds (w : List (List Nat))
    (hw : ∀ r ∈ w, ∀ x ∈ r, x < 256) (roundLimit : Nat) :
    ∀ n round st, roundLimit - round = n → ValidState st →
      ValidState (encryptRounds w roundLimit round st) := by
  intro n
  induction n with
  | zero =>
    intro round st hn hst
    have hge : ¬ round < roundLimit := by omega
    rw [encryptRounds]
    simp only [hge, if_false, ite_false]
    exact hst
  | succ n ih =>
    intro round st hn hst
    have hlt : round < roundLimit := by omega
    rw [encryptRounds]
    simp only [hlt, if_true, ite_true]
    exact ih (round + 1) _ (by omega)
      (valid_encryptRoundBody w roundLimit round st hst hw)

theorem encryptRounds_stop (w : List (List Nat)) (roundLimit round : Nat)
    (st : List (List Nat)) (h : ¬ round < roundLimit) :
    encryptRounds w roundLimit round st = st := by
  rw [encryptRounds]
  simp [h]

theorem encryptRounds_step (w : List (List Nat)) (roundLimit round : Nat)
    (st : List (List Nat)) (h : round < roundLimit) :
    encryptRounds w roundLimit round st =
      encryptRounds w roundLimit (round + 1) (encryptRoundBody w roundLimit round st) := by
  rw [encryptRounds]
  simp [h]

theorem decryptRoundBody_cancel (w : List (List Nat))
    (hw : ∀ r ∈ w, ∀ x ∈ r, x < 256) (roundLimit round : Nat)
    (st : List (List Nat)) (hst : ValidState st) (h1 : 1 ≤ round)
    (hmix : round + 1 < roundLimit) :
    decryptRoundBody w round
        (shiftRows (subBytes (encryptRoundBody w roundLimit round st))) =
      shiftRows (subBytes st) := by
  have hst' : ValidState (encryptRoundBody w roundLimit round st) :=
    valid_encryptRoundBody w roundLimit round st hst hw
  have hbody : encryptRoundBody w roundLimit round st =
      addRoundKey (mixColumns (shiftRows (subBytes st))) w (round * 4) := by
    show addRoundKey
        (if round + 1 < roundLimit then mixColumns (shiftRows (subBytes st))
         else shiftRows (subBytes st)) w (round * 4) = _
    rw [if_pos hmix]
  simp only [decryptRoundBody]
  rw [invShift_shift (subBytes (encryptRoundBody w roundLimit round st))
      (buildState_length _) (buildState_rows _),
    invSub_sub _ hst']
  rw [hbody,
    ark_ark (mixColumns (shiftRows (subBytes st))) w (round * 4)
      (buildState_length _) (buildState_rows _),
    if_pos (by omega : round > 0),
    invMix_mix _ (valid_shiftRows _ (valid_subBytes st))]

theorem decryptRounds_succ (w : List (List Nat)) (round : Nat)
    (st : List (List Nat)) :
    decryptRounds w (round + 1) st =
      decryptRounds w round (decryptRoundBody w (round + 1) st) := rfl

theorem roundsCancel (w : List (List Nat))
    (hw : ∀ r ∈ w, ∀ x ∈ r, x < 256) (roundLimit : Nat) :
    ∀ n r st, r + n = roundLimit → 1 ≤ r → 1 ≤ n → ValidState st →
      decryptRounds w (roundLimit - 2)
          (addRoundKey (encryptRounds w roundLimit r st) w ((roundLimit - 1) * 4)) =
        decryptRounds w (r - 1) (shiftRows (subBytes st)) := by
  intro n
  induction n with
  | zero => intro r st hr h1 hn hv; omega
  | succ n ih =>
    intro r st hr h1 _ hv
    by_cases hn : n = 0
    · subst hn
      have hreq : r = roundLimit - 1 := by omega
      have hrlt : r < roundLimit := by omega
      have hnomix : ¬ r + 1 < roundLimit := by omega
      rw [encryptRounds_step w roundLimit r st hrlt,
        encryptRounds_stop w roundLimit (r + 1) _ (by omega)]
      have hbody : encryptRoundBody w roundLimit r st =
          addRoundKey (shiftRows (subBytes st)) w (r * 4) := by
        show addRoundKey
            (if r + 1 < roundLimit then mixColumns (shiftRows (subBytes st))
             else shiftRows (subBytes st)) w (r * 4) = _
        rw [if_neg hnomix]
      rw [hbody, show (roundLimit - 1) * 4 = r * 4 by omega,
        ark_ark (shiftRows (subBytes st)) w (r * 4)
          (valid_shiftRows _ (valid_subBytes st)).1
          (valid_shiftRows _ (valid_subBytes st)).2.1,
        show r - 1 = roundLimit - 2 by omega]
    · have hrlt : r < roundLimit := by omega
      have hmix : r + 1 < roundLimit := by omega
      rw [encryptRounds_step w roundLimit r st hrlt]
      rw [ih (r + 1) (encryptRoundBody w roundLimit r st) (by omega) (by omega)
        (by omega) (valid_encryptRoundBody w roundLimit r st hv hw)]
      obtain ⟨rr, rfl⟩ : ∃ rr, r = rr + 1 := ⟨r - 1, by omega⟩
      rw [show rr + 1 + 1 - 1 = rr + 1 from by omega, decryptRounds_succ,
        decryptRoundBody_cancel w hw roundLimit (rr + 1) st hv (by omega) hmix,
        show rr + 1 - 1 = rr from by omega]

theorem list16_destruct (l : List Nat) (h : l.length = 16) :
    ∃ x0 x1 x2 x3 x4 x5 x6 x7 x8 x9 x10 x11 x12 x13 x14 x15,
      l = [x0, x1, x2, x3, x4, x5, x6, x7, x8, x9, x10, x11, x12, x13, x14, x15] := by
  match l, h with
  | [x0, x1, x2, x3, x4, x5, x6, x7, x8, x9, x10, x11, x12, x13, x14, x15], _ =>
    exact ⟨x0, x1, x2, x3, x4, x5, x6, x7, x8, x9, x10, x11, x12, x13, x14, x15, rfl⟩

theorem stateFromInput_explicit
    (x0 x1 x2 x3 x4 x5 x6 x7 x8 x9 x10 x11 x12 x13 x14 x15 : Nat) :
    stateFromInput [x0, x1, x2, x3, x4, x5, x6, x7, x8, x9, x10, x11, x12, x13, x14, x15] =
      [[x0, x4, x8, x12], [x1, x5, x9, x13], [x2, x6, x10, x14], [x3, x7, x11, x15]] := rfl

theorem outputFromState_explicit
    (a0 a1 a2 a3 b0 b1 b2 b3 c0 c1 c2 c3 d0 d1 d2 d3 : Nat) :
    outputFromState [[a0, a1, a2, a3], [b0, b1, b2, b3], [c0, c1, c2, c3], [d0, d1, d2, d3]] =
      [a0, b0, c0, d0, a1, b1, c1, d1, a2, b2, c2, d2, a3, b3, c3, d3] := rfl

theorem output_input (input : List Nat) (h : input.length = 16) :
    outputFromState (stateFromInput input) = input := by
  obtain ⟨x0, x1, x2, x3, x4, x5, x6, x7, x8, x9, x10, x11, x12, x13, x14, x15, rfl⟩ :=
    list16_destruct input h
  rw [stateFromInput_explicit, outputFromState_explicit]

theorem input_output (st : List (List Nat)) (h4 : st.length = 4)
    (hr : ∀ r ∈ st, r.length = 4) :
    stateFromInput (outputFromState st) = st := by
  obtain ⟨a0, a1, a2, a3, b0, b1, b2, b3, c0, c1, c2, c3, d0, d1, d2, d3, rfl⟩ :=
    shape_destruct st h4 hr
  rw [outputFromState_explicit, stateFromInput_explicit]

theorem valid_stateFromInput (input : List Nat) (hb : ∀ x ∈ input, x < 256) :
    ValidState (stateFromInput input) := by
  apply valid_buildState
  intro i j _ _
  show (if 4 * i + j < 15 then input.getD ((4 * i + j) * 4 % 15) 0
        else input.getD 15 0) < 256
  split <;> exact getD_lt input hb _

theorem decrypt_encrypt_withLimit (roundLimit : Nat) (h2 : 2 ≤ roundLimit)
    (input key : List Nat) (hkb : ∀ x ∈ key, x < 256)
    (hin : input.length = 16) (hinb : ∀ x ∈ input, x < 256) :
    decryptWithRoundLimit roundLimit (encryptWithRoundLimit roundLimit input key) key
      = input := by
  have hw := keyExpansion_bound roundLimit key hkb
  have hload := valid_stateFromInput input hinb
  have hst0 : ValidState (addRoundKey (stateFromInput input) (keyExpansion roundLimit key) 0) :=
    valid_addRoundKey _ _ _ hload.2.2 hw
  have henc := valid_encryptRounds (keyExpansion roundLimit key) hw roundLimit
    (roundLimit - 1) 1 _ rfl hst0
  simp only [encryptWithRoundLimit, decryptWithRoundLimit]
  rw [input_output _ henc.1 henc.2.1]
  rw [roundsCancel (keyExpansion roundLimit key) hw roundLimit (roundLimit - 1) 1 _
    (by omega) (by omega) (by omega) hst0]
  rw [show (1 : Nat) - 1 = 0 from rfl]
  rw [show decryptRounds (keyExpansion roundLimit key) 0
      (shiftRows (subBytes (addRoundKey (stateFromInput input) (keyExpansion roundLimit key) 0))) =
    decryptRoundBody (keyExpansion roundLimit key) 0
      (shiftRows (subBytes (addRoundKey (stateFromInput input) (keyExpansion roundLimit key) 0)))
    from rfl]
  simp only [decryptRoundBody]
  rw [invShift_shift
      (subBytes (addRoundKey (stateFromInput input) (keyExpansion roundLimit key) 0))
      (buildState_length _) (buildState_rows _),
    invSub_sub _ hst0,
    if_neg (by omega : ¬ (0 : Nat) > 0),
    show (0 : Nat) * 4 = 0 from rfl,
    ark_ark (stateFromInput input) (keyExpansion roundLimit key) 0 hload.1 hload.2.1]
  exact output_input input hin

/-- C3: for every key of 16, 24 or 32 bytes and every 16-byte input block,
`decrypt(encrypt(block, key), key)` returns the block: the JS round loops,
key schedule, S-boxes, ShiftRows cycles and GF(2^8) MixColumns invert
exactly. -/
theorem decrypt_encrypt (key input : List Nat)
    (hkey : key.length = 16 ∨ key.length = 24 ∨ key.length = 32)
    (hkb : ∀ x ∈ key, x < 256)
    (hin : input.length = 16) (hinb : ∀ x ∈ input, x < 256) :
    (encrypt input key).bind (fun ct => decrypt ct key) = Except.ok input := by
  rcases hkey with h | h | h <;>
    simp [encrypt, decrypt, h, Except.bind] <;>
    exact decrypt_encrypt_withLimit _ (by norm_num) input key hkb hin hinb

/-- C3 witness: the round-trip at the all-zero 16-byte key and block. -/
theorem decrypt_encrypt_at_zero :
    (encrypt (List.replicate 16 0) (List.replicate 16 0)).bind
        (fun ct => decrypt ct (List.replicate 16 0)) =
      Except.ok (List.replicate 16 0) :=
  decrypt_encrypt (List.replicate 16 0) (List.replicate 16 0)
    (Or.inl (by decide)) (by decide) (by decide) (by decide)

end Aes
